import Mathlib

/-!
Shallow embedding of the MediFinderBot ingestor pipeline
(parser, identity-resolver/upsert store, ETL orchestrator)
with theorems about its behaviour.

Conventions of the embedding:
* dates are encoded as natural numbers preserving chronological order
  (for example YYYYMMDD), since the code only compares them;
* SQL timestamps (CURRENT_TIMESTAMP) are modelled by an explicit clock
  argument threaded into each write;
* Python float values carried by records are modelled as rationals;
* database tables are lists of rows, surrogate ids are allocated from
  per-table counters starting at 1 (serial columns);
* a database operation runs inside get_cursor/get_connection: connection
  acquisition is retried up to 3 times, each attempt failing while the
  pool still has pending transient failures (DB.pool_failures); rollback
  on failure means an operation that raises leaves the store unchanged.
-/

namespace Ingestor

/-- Python str.upper (over the character data of the string). -/
def py_upper (s : String) : String := String.mk (s.data.map Char.toUpper)

/-- Python str.lower (over the character data of the string). -/
def py_lower (s : String) : String := String.mk (s.data.map Char.toLower)

/-- Whitespace stripping on both ends of a character list. -/
def strip_chars (cs : List Char) : List Char :=
  ((cs.dropWhile Char.isWhitespace).reverse.dropWhile Char.isWhitespace).reverse

/-- Python str.strip. -/
def py_strip (s : String) : String := String.mk (strip_chars s.data)

/-- Python replace of the one-character comma separator by a period
(the replace call of the numeric coercion). -/
def replace_comma (s : String) : String :=
  String.mk (s.data.map (fun c => if c = ',' then '.' else c))

/-- Python exceptions that the pipeline raises and catches. -/
inductive PyExc where
  | valueError (msg : String)
  | operationalError
  deriving DecidableEq, Repr

/-- Row of the regions table. -/
structure Region where
  region_id : Nat
  name : String
  deriving DecidableEq, Repr

/-- Row of the medical_centers table. -/
structure MedicalCenter where
  center_id : Nat
  code : String
  name : String
  region_id : Nat
  category : String
  reporter_name : String
  institution_type : String
  reporter_type : String
  updated_at : Nat
  deriving DecidableEq, Repr

/-- Row of the product_types table. -/
structure ProductTypeRow where
  type_id : Nat
  code : String
  type_name : String
  deriving DecidableEq, Repr

/-- Row of the products table. -/
structure Product where
  product_id : Nat
  code : String
  name : String
  type_id : Nat
  updated_at : Nat
  deriving DecidableEq, Repr

/-- Row of the inventory table. -/
structure InventoryRow where
  inventory_id : Nat
  center_id : Nat
  product_id : Nat
  current_stock : ℚ
  avg_monthly_consumption : Option ℚ
  accumulated_consumption_4m : Option ℚ
  measurement : Option ℚ
  last_month_consumption : Option ℚ
  last_month_stock : Option ℚ
  status_indicator : String
  cpma_12_months_ago : Option ℚ
  cpma_24_months_ago : Option ℚ
  cpma_36_months_ago : Option ℚ
  accumulated_consumption_12m : Option ℚ
  report_date : Nat
  status : String
  updated_at : Nat
  deriving DecidableEq, Repr

/-- Database state: the five tables, the serial-id counters, and the number
of pending transient connection-acquisition failures of the pool. -/
structure DB where
  regions : List Region
  medical_centers : List MedicalCenter
  product_types : List ProductTypeRow
  products : List Product
  inventory : List InventoryRow
  next_region_id : Nat
  next_center_id : Nat
  next_type_id : Nat
  next_product_id : Nat
  next_inventory_id : Nat
  pool_failures : Nat
  deriving DecidableEq, Repr

/-- Empty database with serial counters at 1 and a healthy pool. -/
def DB.empty : DB :=
  ⟨[], [], [], [], [], 1, 1, 1, 1, 1, 0⟩

/-- Attempt pool.getconn up to n times against k pending transient failures;
returns whether an attempt succeeded and the failures left over. -/
def getconn_attempts : Nat → Nat → Bool × Nat
  | 0, k => (false, k)
  | _ + 1, 0 => (true, 0)
  | n + 1, k + 1 => getconn_attempts n k

/-- DatabaseManager.get_connection with retries=3: raises OperationalError
after the last failed attempt (models psycopg2 pool acquisition). -/
def get_connection (db : DB) : Except PyExc DB :=
  match getconn_attempts 3 db.pool_failures with
  | (true, k) => .ok { db with pool_failures := k }
  | (false, _) => .error .operationalError

/-- DatabaseManager.get_or_create_region: look up by exact name, insert a
new row when absent, return the surrogate id. -/
def get_or_create_region (db : DB) (region_name : String) : Except PyExc (Nat × DB) :=
  match get_connection db with
  | .error e => .error e
  | .ok db =>
  match db.regions.find? (fun r => r.name == region_name) with
  | some r => .ok (r.region_id, db)
  | none =>
      .ok (db.next_region_id,
        { db with
            regions := db.regions ++ [⟨db.next_region_id, region_name⟩],
            next_region_id := db.next_region_id + 1 })

/-- Data passed to get_or_create_medical_center (the center_data dict). -/
structure CenterData where
  code : String
  name : String
  region_id : Nat
  category : String
  reporter_name : String
  institution_type : String
  reporter_type : String
  deriving DecidableEq, Repr

/-- DatabaseManager.get_or_create_medical_center: look up by code; when found
overwrite every mutable attribute and the updated_at timestamp (UPDATE ...
WHERE code), otherwise insert a new row. -/
def get_or_create_medical_center (db : DB) (d : CenterData) (now : Nat) :
    Except PyExc (Nat × DB) :=
  match get_connection db with
  | .error e => .error e
  | .ok db =>
  match db.medical_centers.find? (fun c => c.code == d.code) with
  | some c =>
      .ok (c.center_id,
        { db with
            medical_centers := db.medical_centers.map (fun c0 =>
              if c0.code == d.code then
                { c0 with
                    name := d.name, region_id := d.region_id, category := d.category,
                    reporter_name := d.reporter_name,
                    institution_type := d.institution_type,
                    reporter_type := d.reporter_type, updated_at := now }
              else c0) })
  | none =>
      .ok (db.next_center_id,
        { db with
            medical_centers := db.medical_centers ++
              [⟨db.next_center_id, d.code, d.name, d.region_id, d.category,
                d.reporter_name, d.institution_type, d.reporter_type, now⟩],
            next_center_id := db.next_center_id + 1 })

/-- Data passed to get_or_create_product (the product_data dict). -/
structure ProductData where
  code : String
  name : String
  type_id : Nat
  deriving DecidableEq, Repr

/-- DatabaseManager.get_or_create_product: look up by code; when found
overwrite name, type and updated_at, otherwise insert a new row. -/
def get_or_create_product (db : DB) (d : ProductData) (now : Nat) :
    Except PyExc (Nat × DB) :=
  match get_connection db with
  | .error e => .error e
  | .ok db =>
  match db.products.find? (fun p => p.code == d.code) with
  | some p =>
      .ok (p.product_id,
        { db with
            products := db.products.map (fun p0 =>
              if p0.code == d.code then
                { p0 with name := d.name, type_id := d.type_id, updated_at := now }
              else p0) })
  | none =>
      .ok (db.next_product_id,
        { db with
            products := db.products ++
              [⟨db.next_product_id, d.code, d.name, d.type_id, now⟩],
            next_product_id := db.next_product_id + 1 })

/-- INSERT INTO product_types ... ON CONFLICT (code) DO NOTHING for the two
seeded types M (Medicine) and I (Instrument/Supply). -/
def seed_product_types (l : List ProductTypeRow) (next_id : Nat) :
    List ProductTypeRow × Nat :=
  let step1 :=
    if l.any (fun t => t.code == "M") then (l, next_id)
    else (l ++ [⟨next_id, "M", "Medicine"⟩], next_id + 1)
  if step1.1.any (fun t => t.code == "I") then step1
  else (step1.1 ++ [⟨step1.2, "I", "Instrument/Supply"⟩], step1.2 + 1)

/-- DatabaseManager.get_product_type_id: look up the code; when absent, seed
the default types and look up once more; returns none if still absent. -/
def get_product_type_id (db : DB) (type_code : String) :
    Except PyExc (Option Nat × DB) :=
  match get_connection db with
  | .error e => .error e
  | .ok db =>
  match db.product_types.find? (fun t => t.code == type_code) with
  | some t => .ok (some t.type_id, db)
  | none =>
      let seeded := seed_product_types db.product_types db.next_type_id
      let db := { db with product_types := seeded.1, next_type_id := seeded.2 }
      match db.product_types.find? (fun t => t.code == type_code) with
      | some t => .ok (some t.type_id, db)
      | none => .ok (none, db)

/-- Data passed to update_inventory (the inventory_data dict). -/
structure InventoryData where
  center_id : Nat
  product_id : Nat
  current_stock : ℚ
  avg_monthly_consumption : Option ℚ
  accumulated_consumption_4m : Option ℚ
  measurement : Option ℚ
  last_month_consumption : Option ℚ
  last_month_stock : Option ℚ
  status_indicator : String
  cpma_12_months_ago : Option ℚ
  cpma_24_months_ago : Option ℚ
  cpma_36_months_ago : Option ℚ
  accumulated_consumption_12m : Option ℚ
  report_date : Nat
  status : String
  deriving DecidableEq, Repr

/-- Natural-key match of an inventory row against incoming data:
the ON CONFLICT (center_id, product_id, report_date) target. -/
def same_inv_key (d : InventoryData) (r : InventoryRow) : Bool :=
  r.center_id == d.center_id && r.product_id == d.product_id &&
    r.report_date == d.report_date

/-- Overwrite of an existing inventory row by the DO UPDATE SET branch:
every measurement field, stock, status fields and updated_at come from the
incoming (EXCLUDED) data; key columns are untouched. -/
def inv_overwrite (d : InventoryData) (now : Nat) (r : InventoryRow) : InventoryRow :=
  { r with
      current_stock := d.current_stock,
      avg_monthly_consumption := d.avg_monthly_consumption,
      accumulated_consumption_4m := d.accumulated_consumption_4m,
      measurement := d.measurement,
      last_month_consumption := d.last_month_consumption,
      last_month_stock := d.last_month_stock,
      status_indicator := d.status_indicator,
      cpma_12_months_ago := d.cpma_12_months_ago,
      cpma_24_months_ago := d.cpma_24_months_ago,
      cpma_36_months_ago := d.cpma_36_months_ago,
      accumulated_consumption_12m := d.accumulated_consumption_12m,
      status := d.status,
      updated_at := now }

/-- Fresh inventory row built by the INSERT branch. -/
def inv_insert (d : InventoryData) (id now : Nat) : InventoryRow :=
  { inventory_id := id, center_id := d.center_id, product_id := d.product_id,
    current_stock := d.current_stock,
    avg_monthly_consumption := d.avg_monthly_consumption,
    accumulated_consumption_4m := d.accumulated_consumption_4m,
    measurement := d.measurement,
    last_month_consumption := d.last_month_consumption,
    last_month_stock := d.last_month_stock,
    status_indicator := d.status_indicator,
    cpma_12_months_ago := d.cpma_12_months_ago,
    cpma_24_months_ago := d.cpma_24_months_ago,
    cpma_36_months_ago := d.cpma_36_months_ago,
    accumulated_consumption_12m := d.accumulated_consumption_12m,
    report_date := d.report_date, status := d.status, updated_at := now }

/-- DatabaseManager.update_inventory: INSERT ... ON CONFLICT
(center_id, product_id, report_date) DO UPDATE SET all measurement fields,
stock, status fields and updated_at from the excluded row. -/
def update_inventory (db : DB) (d : InventoryData) (now : Nat) : Except PyExc DB :=
  match get_connection db with
  | .error e => .error e
  | .ok db =>
  if db.inventory.any (same_inv_key d) then
    .ok { db with inventory := db.inventory.map (fun r =>
            if same_inv_key d r then inv_overwrite d now r else r) }
  else
    .ok { db with
            inventory := db.inventory ++ [inv_insert d db.next_inventory_id now],
            next_inventory_id := db.next_inventory_id + 1 }

/-- WHERE clause of the reconciliation UPDATE: report_date strictly before
the cutoff and current_stock strictly positive. -/
def stale_row (cutoff : Nat) (r : InventoryRow) : Bool :=
  decide (r.report_date < cutoff) && decide ((0 : ℚ) < r.current_stock)

/-- DatabaseManager.mark_missing_inventory_as_zero: zero the stock and set
status_indicator to the fixed marker on every stale row, refresh updated_at,
return the number of rows affected (cursor.rowcount). -/
def mark_missing_inventory_as_zero (db : DB) (report_date now : Nat) :
    Except PyExc (Nat × DB) :=
  match get_connection db with
  | .error e => .error e
  | .ok db =>
  .ok (db.inventory.countP (stale_row report_date),
    { db with inventory := db.inventory.map (fun r =>
        if stale_row report_date r then
          { r with current_stock := 0, updated_at := now,
                   status_indicator := "Desabastecido" }
        else r) })

/-- Parsed record (the dict built by FileParser, with typed values):
string columns stay strings, numeric columns become optional rationals,
the report date becomes an optional encoded date. -/
structure Record where
  nombre_ejecutora : String
  diresa : String
  categoria : String
  codpre : String
  reportante : String
  tipsum : String
  codmed : String
  nombre_prod : String
  tipo_prod : String
  stk : Option ℚ
  cpma : Option ℚ
  consumo_acum_4m : Option ℚ
  med : Option ℚ
  fechareporte : Option Nat
  estado : String
  institucion : String
  tipo_reportante : String
  consumo_ult_mes : Option ℚ
  stk_ult_mes : Option ℚ
  indicador : String
  cpma_hace_12_meses_a : Option ℚ
  cpma_hace_24_meses_a : Option ℚ
  cpma_hace_36_meses_a : Option ℚ
  consumo_acum_12m : Option ℚ
  fin : String
  deriving DecidableEq, Repr

/-- Fixed 25-column schema (config.settings.COLUMNS). -/
def COLUMNS : List String :=
  ["nombre_ejecutora", "diresa", "categoria", "codpre", "reportante",
   "tipsum", "codmed", "nombre_prod", "tipo_prod", "stk",
   "cpma", "consumo_acum_4m", "med", "fechareporte", "estado",
   "institucion", "tipo_reportante", "consumo_ult_mes", "stk_ult_mes", "indicador",
   "cpma_hace_12_meses_a", "cpma_hace_24_meses_a", "cpma_hace_36_meses_a",
   "consumo_acum_12m", "fin"]

/-- Positions of the required-by-position fields checked by the parser. -/
def REQUIRED_INDICES : List Nat := [0, 1, 2, 3, 6, 7, 8]

/-- FileParser._validate_record: a split line is valid when it has at least
as many fields as the schema and each required position holds a value that
is nonempty after stripping. -/
def parser_validate_record (values : List String) : Bool :=
  if values.length < COLUMNS.length then false
  else REQUIRED_INDICES.all (fun idx =>
    decide (idx < values.length) && !(py_strip (values.getD idx "") == ""))

/-- Value of column i after the pad-to-25/truncate step and per-value strip
(padding uses the empty string, which getD supplies for missing indices). -/
def field_at (values : List String) (i : Nat) : String :=
  py_strip (values.getD i "")

/-- Natural number denoted by a list of decimal digit characters. -/
def digits_to_nat (cs : List Char) : Nat :=
  cs.foldl (fun n c => n * 10 + (c.toNat - 48)) 0

/-- Decimal-literal parser standing for Python float(): optional sign,
integer digits, optional fractional part after a period; whitespace around
the literal is tolerated; anything else raises ValueError (none here).
The extracts only carry plain decimal literals, so the exotic float()
forms (exponents, inf, nan) are out of scope of the model. -/
def parse_decimal (s : String) : Option ℚ :=
  let cs := strip_chars s.data
  let (sign, cs) : ℚ × List Char :=
    match cs with
    | '-' :: rest => (-1, rest)
    | '+' :: rest => (1, rest)
    | _ => (1, cs)
  let intPart := cs.takeWhile Char.isDigit
  let rest := cs.dropWhile Char.isDigit
  match rest with
  | [] =>
      if intPart.isEmpty then none
      else some (sign * (digits_to_nat intPart : ℚ))
  | '.' :: frac =>
      if frac.all Char.isDigit && !(intPart.isEmpty && frac.isEmpty) then
        some (sign * ((digits_to_nat intPart : ℚ) +
          (digits_to_nat frac : ℚ) / (10 : ℚ) ^ frac.length))
      else none
  | _ => none

/-- Numeric coercion of FileParser._create_record: the empty string or the
literal null in any letter case becomes an absent value; otherwise the text
is parsed as a decimal after replacing the comma separator by a period, and
a parse failure (ValueError) is caught and becomes an absent value. -/
def coerce_numeric (s : String) : Option ℚ :=
  if !(s == "") && !(py_lower s == "null") then
    parse_decimal (replace_comma s)
  else
    none

/-- Strict YYYY-MM-DD date parser standing for datetime.strptime; the date
is encoded as y*10000 + m*100 + d, which preserves chronological order.
Absence or a parse failure yields none (the caller treats both as absent). -/
def parse_report_date (s : String) : Option Nat :=
  match s.data with
  | [y1, y2, y3, y4, '-', m1, m2, '-', d1, d2] =>
      if [y1, y2, y3, y4, m1, m2, d1, d2].all Char.isDigit then
        let m := digits_to_nat [m1, m2]
        let d := digits_to_nat [d1, d2]
        if 1 ≤ m && m ≤ 12 && 1 ≤ d && d ≤ 31 then
          some (digits_to_nat [y1, y2, y3, y4] * 10000 + m * 100 + d)
        else none
      else none
  | _ => none

/-- FileParser._create_record: map the padded, stripped values onto the 25
columns, then coerce the numeric columns and the report date. -/
def create_record (values : List String) : Record :=
  { nombre_ejecutora := field_at values 0,
    diresa := field_at values 1,
    categoria := field_at values 2,
    codpre := field_at values 3,
    reportante := field_at values 4,
    tipsum := field_at values 5,
    codmed := field_at values 6,
    nombre_prod := field_at values 7,
    tipo_prod := field_at values 8,
    stk := coerce_numeric (field_at values 9),
    cpma := coerce_numeric (field_at values 10),
    consumo_acum_4m := coerce_numeric (field_at values 11),
    med := coerce_numeric (field_at values 12),
    fechareporte := parse_report_date (field_at values 13),
    estado := field_at values 14,
    institucion := field_at values 15,
    tipo_reportante := field_at values 16,
    consumo_ult_mes := coerce_numeric (field_at values 17),
    stk_ult_mes := coerce_numeric (field_at values 18),
    indicador := field_at values 19,
    cpma_hace_12_meses_a := coerce_numeric (field_at values 20),
    cpma_hace_24_meses_a := coerce_numeric (field_at values 21),
    cpma_hace_36_meses_a := coerce_numeric (field_at values 22),
    consumo_acum_12m := coerce_numeric (field_at values 23),
    fin := field_at values 24 }

/-- Body of the per-line loop of FileParser.parse, from the point where the
line has been split by the delimiter: an invalid line is dropped and counts
one error, a valid line appends its record. -/
def parse_step (acc : List Record × Nat) (values : List String) : List Record × Nat :=
  if parser_validate_record values then (acc.1 ++ [create_record values], acc.2)
  else (acc.1, acc.2 + 1)

/-- FileParser.parse over the split nonempty lines of the file: returns the
produced records together with the error count. -/
def parse_lines (lines : List (List String)) : List Record × Nat :=
  lines.foldl parse_step ([], 0)

/-- ETLProcessor statistics dictionary. -/
structure Stats where
  regions_created : Nat
  centers_created : Nat
  centers_updated : Nat
  products_created : Nat
  products_updated : Nat
  inventory_created : Nat
  inventory_updated : Nat
  errors : Nat
  processed : Nat
  skipped : Nat
  deriving DecidableEq, Repr

/-- Statistics of a fresh ETLProcessor: every counter is zero. -/
def Stats.init : Stats := ⟨0, 0, 0, 0, 0, 0, 0, 0, 0, 0⟩

/-- Mutable state of an ETLProcessor run: the store it writes through, the
statistics, the processed (center, product) pairs, and the tracked latest
report date. -/
structure ETLState where
  db : DB
  stats : Stats
  processed_items : List (Nat × Nat)
  latest_report_date : Option Nat
  deriving DecidableEq, Repr

/-- ETLProcessor.__init__. -/
def ETLState.init (db : DB) : ETLState := ⟨db, Stats.init, [], none⟩

/-- ETLProcessor._validate_record: every required field must be truthy
(nonempty string, present date, and a stock that is not None). -/
def etl_validate_record (r : Record) : Bool :=
  !(r.diresa == "") && !(r.codpre == "") && !(r.nombre_ejecutora == "") &&
  !(r.categoria == "") && !(r.codmed == "") && !(r.nombre_prod == "") &&
  !(r.tipo_prod == "") && r.fechareporte.isSome && r.stk.isSome

/-- Latest-report-date update: a present date replaces the tracked maximum
when there is none yet or when it is strictly later. -/
def track_latest (latest : Option Nat) (d : Option Nat) : Option Nat :=
  match d with
  | none => latest
  | some d0 =>
      match latest with
      | none => some d0
      | some m => if m < d0 then some d0 else latest

/-- ETLProcessor._process_region: reject blank or null-literal region names
with ValueError, otherwise resolve-or-create the region and increment the
regions_created counter (it counts resolutions, also of existing regions). -/
def process_region (s : ETLState) (r : Record) : ETLState × Except PyExc Nat :=
  let region_name := r.diresa
  if region_name == "" || ["NULL", "NONE", ""].contains (py_upper region_name) then
    (s, .error (.valueError "Invalid region name"))
  else
    match get_or_create_region s.db region_name with
    | .error e => (s, .error e)
    | .ok (region_id, db) =>
        ({ s with
             db := db,
             stats := { s.stats with regions_created := s.stats.regions_created + 1 } },
         .ok region_id)

/-- ETLProcessor._process_medical_center. -/
def process_medical_center (s : ETLState) (r : Record) (region_id now : Nat) :
    ETLState × Except PyExc Nat :=
  let center_data : CenterData :=
    { code := r.codpre, name := r.nombre_ejecutora, region_id := region_id,
      category := r.categoria, reporter_name := r.reportante,
      institution_type := r.institucion, reporter_type := r.tipo_reportante }
  match get_or_create_medical_center s.db center_data now with
  | .error e => (s, .error e)
  | .ok (center_id, db) => ({ s with db := db }, .ok center_id)

/-- ETLProcessor._process_product: resolve the product type first (the ids
start at 1, so the falsiness test on the returned id is a None test); a
missing type is a ValueError for the record, after the seeding write to
product_types has already been committed. -/
def process_product (s : ETLState) (r : Record) (now : Nat) :
    ETLState × Except PyExc Nat :=
  match get_product_type_id s.db r.tipo_prod with
  | .error e => (s, .error e)
  | .ok (type_id?, db) =>
      let s := { s with db := db }
      match type_id? with
      | none => (s, .error (.valueError "Invalid product type code"))
      | some type_id =>
          let product_data : ProductData :=
            { code := r.codmed, name := r.nombre_prod, type_id := type_id }
          match get_or_create_product s.db product_data now with
          | .error e => (s, .error e)
          | .ok (product_id, db) => ({ s with db := db }, .ok product_id)

/-- Python truthiness default for a possibly absent rational
(the expression v or dflt, where 0 is falsy). -/
def py_or_rat (v : Option ℚ) (dflt : ℚ) : ℚ :=
  match v with
  | none => dflt
  | some q => if q = 0 then dflt else q

/-- Python truthiness default for a string (the expression v or dflt). -/
def py_or_str (v dflt : String) : String :=
  if v == "" then dflt else v

/-- Python truthiness default for an optional date: date objects are always
truthy, so only None falls back to the default. -/
def py_or_date (v : Option Nat) (dflt : Nat) : Nat :=
  v.getD dflt

/-- Inventory_data dict built by ETLProcessor._process_inventory: absent
stock defaults to 0, absent report date to today, absent status to ACTIVO. -/
def build_inventory_data (r : Record) (center_id product_id today : Nat) :
    InventoryData :=
  { center_id := center_id, product_id := product_id,
    current_stock := py_or_rat r.stk 0,
    avg_monthly_consumption := r.cpma,
    accumulated_consumption_4m := r.consumo_acum_4m,
    measurement := r.med,
    last_month_consumption := r.consumo_ult_mes,
    last_month_stock := r.stk_ult_mes,
    status_indicator := r.indicador,
    cpma_12_months_ago := r.cpma_hace_12_meses_a,
    cpma_24_months_ago := r.cpma_hace_24_meses_a,
    cpma_36_months_ago := r.cpma_hace_36_meses_a,
    accumulated_consumption_12m := r.consumo_acum_12m,
    report_date := py_or_date r.fechareporte today,
    status := py_or_str r.estado "ACTIVO" }

/-- ETLProcessor._process_inventory. -/
def process_inventory (s : ETLState) (r : Record) (center_id product_id today now : Nat) :
    ETLState × Except PyExc Unit :=
  match update_inventory s.db (build_inventory_data r center_id product_id today) now with
  | .error e => (s, .error e)
  | .ok db => ({ s with db := db }, .ok ())

/-- Insertion into the processed_items set. -/
def add_processed_item (items : List (Nat × Nat)) (x : Nat × Nat) : List (Nat × Nat) :=
  if items.contains x then items else items ++ [x]

/-- ETLProcessor._process_record: an invalid record only bumps the skipped
counter; a valid record first updates the tracked latest report date, then
runs the region, center, product and inventory steps. Each step commits
independently, so on a failure the state reached so far is kept and the
exception is reported to the caller. -/
def process_record (today now : Nat) (s : ETLState) (r : Record) :
    ETLState × Option PyExc :=
  if !etl_validate_record r then
    ({ s with stats := { s.stats with skipped := s.stats.skipped + 1 } }, none)
  else
    let s := { s with
      latest_report_date := track_latest s.latest_report_date r.fechareporte }
    match process_region s r with
    | (s, .error e) => (s, some e)
    | (s, .ok region_id) =>
        match process_medical_center s r region_id now with
        | (s, .error e) => (s, some e)
        | (s, .ok center_id) =>
            match process_product s r now with
            | (s, .error e) => (s, some e)
            | (s, .ok product_id) =>
                match process_inventory s r center_id product_id today now with
                | (s, .error e) => (s, some e)
                | (s, .ok _) =>
                    ({ s with processed_items :=
                        add_processed_item s.processed_items (center_id, product_id) },
                     none)

/-- Body of the per-record loop of ETLProcessor._process_batch (the
try/except around one record): every exception the record raises is caught
here and counted as an error; a record that raises nothing (including a
skipped one) counts as processed. -/
def batch_step (today now : Nat) (s : ETLState) (r : Record) : ETLState :=
  match process_record today now s r with
  | (s, none) => { s with stats := { s.stats with processed := s.stats.processed + 1 } }
  | (s, some _) => { s with stats := { s.stats with errors := s.stats.errors + 1 } }

/-- ETLProcessor._process_batch. -/
def process_batch (today now : Nat) (s : ETLState) (batch : List Record) : ETLState :=
  batch.foldl (batch_step today now) s

/-- Batch size from config.settings. -/
def BATCH_SIZE : Nat := 1000

/-- Fuelled slicing of a list into consecutive chunks of BATCH_SIZE
(the fuel makes the recursion structural; fuel at least the length of the
list is enough since every step shortens a nonempty list). -/
def chunks_fuel {α : Type} : Nat → List α → List (List α)
  | _, [] => []
  | 0, l => [l]
  | fuel + 1, l => l.take BATCH_SIZE :: chunks_fuel fuel (l.drop BATCH_SIZE)

/-- Record slices taken by the batching loop of process_records. -/
def batch_slices {α : Type} (l : List α) : List (List α) :=
  chunks_fuel l.length l

/-- ETLProcessor.process_records: fold the batch processor over the
BATCH_SIZE slices of the record list. -/
def process_records (today now : Nat) (s : ETLState) (records : List Record) : ETLState :=
  (batch_slices records).foldl (process_batch today now) s

/-- ETLProcessor.cleanup_missing_inventory: without a tracked report date the
pass is skipped with count 0; a store failure is caught and also yields 0. -/
def cleanup_missing_inventory (s : ETLState) (now : Nat) : Nat × ETLState :=
  match s.latest_report_date with
  | none => (0, s)
  | some d =>
      match mark_missing_inventory_as_zero s.db d now with
      | .ok (count, db) => (count, { s with db := db })
      | .error _ => (0, s)

/-- Exit status of main(): the try block covers DatabaseManager creation,
FileParser.parse, process_records and the cleanup; only the first two can
raise (the last two catch every exception internally), and an escaping
exception yields exit code 1, a completed run exit code 0. -/
def main_run (db_init : Except PyExc DB) (parsed : Except PyExc (List Record))
    (today now : Nat) : Nat :=
  match db_init with
  | .error _ => 1
  | .ok db =>
      match parsed with
      | .error _ => 1
      | .ok records =>
          let s := process_records today now (ETLState.init db) records
          let _ := cleanup_missing_inventory s now
          0

/-- Concrete well-formed record used by witnesses and counterexamples. -/
def sample_record : Record :=
  { nombre_ejecutora := "HOSPITAL REGIONAL", diresa := "LIMA", categoria := "II-1",
    codpre := "P001", reportante := "R", tipsum := "T", codmed := "MED1",
    nombre_prod := "PARACETAMOL", tipo_prod := "M", stk := some 5, cpma := none,
    consumo_acum_4m := none, med := none, fechareporte := some 20240101,
    estado := "", institucion := "MINSA", tipo_reportante := "TR",
    consumo_ult_mes := none, stk_ult_mes := none, indicador := "Normal",
    cpma_hace_12_meses_a := none, cpma_hace_24_meses_a := none,
    cpma_hace_36_meses_a := none, consumo_acum_12m := none, fin := "x" }

/-- Record with an invalid product type code and a later report date. -/
def sample_bad_type : Record :=
  { sample_record with tipo_prod := "X", fechareporte := some 20240202 }

/-- Record with an absent report date. -/
def sample_no_date : Record :=
  { sample_record with fechareporte := none }

/-- Database whose connection pool fails more often than the retry budget. -/
def broken_db : DB :=
  { DB.empty with pool_failures := 100 }

/-- Inventory row that is stale at cutoff 20240202. -/
def sample_row_stale : InventoryRow :=
  { inventory_id := 1, center_id := 1, product_id := 1, current_stock := 4,
    avg_monthly_consumption := none, accumulated_consumption_4m := none,
    measurement := none, last_month_consumption := none, last_month_stock := none,
    status_indicator := "Normal", cpma_12_months_ago := none,
    cpma_24_months_ago := none, cpma_36_months_ago := none,
    accumulated_consumption_12m := none, report_date := 20240101,
    status := "ACTIVO", updated_at := 3 }

/-- Inventory row dated at the cutoff itself. -/
def sample_row_fresh : InventoryRow :=
  { sample_row_stale with inventory_id := 2, product_id := 2, report_date := 20240202 }

/-- Database holding one stale and one fresh inventory row. -/
def inv_db : DB :=
  { DB.empty with inventory := [sample_row_stale, sample_row_fresh], next_inventory_id := 3 }

/-- Concrete inventory data for the first upsert of a key. -/
def sample_inv_data1 : InventoryData :=
  { center_id := 1, product_id := 1, current_stock := 5,
    avg_monthly_consumption := none, accumulated_consumption_4m := none,
    measurement := some 1, last_month_consumption := none, last_month_stock := none,
    status_indicator := "Normal", cpma_12_months_ago := none,
    cpma_24_months_ago := none, cpma_36_months_ago := none,
    accumulated_consumption_12m := none, report_date := 20240101, status := "ACTIVO" }

/-- Same natural key as the first upsert, different measurement values. -/
def sample_inv_data2 : InventoryData :=
  { sample_inv_data1 with
      current_stock := 9, measurement := some 2,
      status_indicator := "Bajo", status := "ACTIVO" }

/-- Store state after upserting the first sample fact into the empty store. -/
def db_after_first_upsert : DB :=
  match update_inventory DB.empty sample_inv_data1 3 with
  | .ok db => db
  | .error _ => DB.empty

/-- Store state after the second upsert of the same natural key. -/
def db_after_second_upsert : DB :=
  match update_inventory db_after_first_upsert sample_inv_data2 4 with
  | .ok db => db
  | .error _ => DB.empty

/-- Uniqueness constraint of the inventory table: no two rows share the
(center_id, product_id, report_date) natural key. -/
def inv_keys_unique (inv : List InventoryRow) : Prop :=
  inv.Pairwise (fun a b =>
    ¬(a.center_id = b.center_id ∧ a.product_id = b.product_id ∧
      a.report_date = b.report_date))

/-- Split line with too few fields. -/
def bad_line : List String := ["HOSPITAL", "LIMA", "II-1"]

/-- Well-formed split line with all 25 fields. -/
def good_line : List String :=
  ["HOSPITAL REGIONAL", "LIMA", "II-1", "P001", "R",
   "T", "MED1", "PARACETAMOL", "M", "5",
   "null", "", "1", "2024-01-01", "ACTIVO",
   "MINSA", "TR", "null", "null", "Normal",
   "null", "null", "null", "null", "x"]

/-- Database already holding the region of the sample record. -/
def region_db : DB :=
  { DB.empty with regions := [⟨1, "LIMA"⟩], next_region_id := 2 }

/-- ETL state over region_db. -/
def region_state : ETLState := ETLState.init region_db

/-- Store state after reconciling the two-row store at cutoff 20240202. -/
def inv_db_after : DB :=
  match mark_missing_inventory_as_zero inv_db 20240202 77 with
  | .ok (_, db) => db
  | .error _ => inv_db

theorem get_connection_healthy (db : DB) (h : db.pool_failures = 0) :
    get_connection db = .ok db := by
  cases db
  simp_all [get_connection, getconn_attempts]

theorem get_connection_exhausted (db : DB) (h : 3 ≤ db.pool_failures) :
    get_connection db = .error .operationalError := by
  obtain ⟨k, hk⟩ := Nat.exists_eq_add_of_le' h
  simp [get_connection, hk, getconn_attempts]

theorem get_connection_recovers (db : DB) (h : db.pool_failures < 3) :
    ∃ db2, get_connection db = .ok db2 := by
  match db, h with
  | ⟨a, b, c, d, e, f, g, h0, i, j, 0⟩, _ => exact ⟨_, rfl⟩
  | ⟨a, b, c, d, e, f, g, h0, i, j, 1⟩, _ => exact ⟨_, rfl⟩
  | ⟨a, b, c, d, e, f, g, h0, i, j, 2⟩, _ => exact ⟨_, rfl⟩

theorem parse_lines_from (ls : List (List String)) :
    ∀ (r : List Record) (e : Nat),
      ls.foldl parse_step (r, e) = (r ++ (parse_lines ls).1, e + (parse_lines ls).2) := by
  induction ls with
  | nil => intro r e; simp [parse_lines]
  | cons v ls ih =>
      intro r e
      show ls.foldl parse_step (parse_step (r, e) v) = _
      by_cases h : parser_validate_record v
      · rw [show parse_step (r, e) v = (r ++ [create_record v], e) from by
            simp [parse_step, h]]
        rw [ih]
        have h2 : parse_lines (v :: ls) =
            ([create_record v] ++ (parse_lines ls).1, 0 + (parse_lines ls).2) := by
          show ls.foldl parse_step (parse_step ([], 0) v) = _
          rw [show parse_step ([], 0) v = ([create_record v], 0) from by
              simp [parse_step, h]]
          exact ih [create_record v] 0
        rw [h2]
        simp
      · rw [show parse_step (r, e) v = (r, e + 1) from by simp [parse_step, h]]
        rw [ih]
        have h2 : parse_lines (v :: ls) =
            ([] ++ (parse_lines ls).1, 1 + (parse_lines ls).2) := by
          show ls.foldl parse_step (parse_step ([], 0) v) = _
          rw [show parse_step ([], 0) v = ([], 1) from by simp [parse_step, h]]
          exact ih [] 1
        rw [h2]
        simp
        omega

theorem chunks_fuel_foldl {α β : Type} (g : β → α → β) :
    ∀ (fuel : Nat) (l : List α) (s : β),
      (chunks_fuel fuel l).foldl (fun s b => b.foldl g s) s = l.foldl g s := by
  intro fuel
  induction fuel with
  | zero =>
      intro l s
      cases l with
      | nil => rfl
      | cons x xs => simp [chunks_fuel]
  | succ fuel ih =>
      intro l s
      cases l with
      | nil => rfl
      | cons x xs =>
          show ((x :: xs).take BATCH_SIZE :: chunks_fuel fuel ((x :: xs).drop BATCH_SIZE)).foldl _ s = _
          rw [List.foldl_cons, ih, ← List.foldl_append, List.take_append_drop]

theorem process_records_eq_foldl (today now : Nat) (s : ETLState) (records : List Record) :
    process_records today now s records = records.foldl (batch_step today now) s := by
  show (chunks_fuel records.length records).foldl (process_batch today now) s = _
  have h : ∀ (cs : List (List Record)) (s0 : ETLState),
      cs.foldl (process_batch today now) s0 =
        cs.foldl (fun s b => b.foldl (batch_step today now) s) s0 := by
    intro cs
    induction cs with
    | nil => intro s0; rfl
    | cons c cs ih => intro s0; simp only [List.foldl_cons, ih]; rfl
  rw [h]
  exact chunks_fuel_foldl (batch_step today now) records.length records s


/-- State relation preserved by the region, center, product and inventory
steps of one record: the tracked latest date and every statistics counter
except regions_created stay put. -/
def etl_frame (s s2 : ETLState) : Prop :=
  s2.latest_report_date = s.latest_report_date ∧
  s2.stats.processed = s.stats.processed ∧
  s2.stats.errors = s.stats.errors ∧
  s2.stats.skipped = s.stats.skipped ∧
  s2.stats.centers_created = s.stats.centers_created ∧
  s2.stats.centers_updated = s.stats.centers_updated ∧
  s2.stats.products_created = s.stats.products_created ∧
  s2.stats.products_updated = s.stats.products_updated ∧
  s2.stats.inventory_created = s.stats.inventory_created ∧
  s2.stats.inventory_updated = s.stats.inventory_updated

theorem etl_frame_rfl (s : ETLState) : etl_frame s s :=
  ⟨rfl, rfl, rfl, rfl, rfl, rfl, rfl, rfl, rfl, rfl⟩

theorem etl_frame_trans {a b c : ETLState} (h1 : etl_frame a b) (h2 : etl_frame b c) :
    etl_frame a c := by
  obtain ⟨x1, x2, x3, x4, x5, x6, x7, x8, x9, x10⟩ := h1
  obtain ⟨y1, y2, y3, y4, y5, y6, y7, y8, y9, y10⟩ := h2
  exact ⟨y1.trans x1, y2.trans x2, y3.trans x3, y4.trans x4, y5.trans x5,
    y6.trans x6, y7.trans x7, y8.trans x8, y9.trans x9, y10.trans x10⟩

theorem process_region_skel (s s2 : ETLState) (r : Record) (res : Except PyExc Nat)
    (h : process_region s r = (s2, res)) : etl_frame s s2 := by
  unfold process_region at h
  dsimp only at h
  split at h
  · injection h with h1 h2
    subst h1
    exact etl_frame_rfl s
  · split at h <;> injection h with h1 h2 <;> subst h1
    · exact etl_frame_rfl s
    · exact ⟨rfl, rfl, rfl, rfl, rfl, rfl, rfl, rfl, rfl, rfl⟩

theorem process_medical_center_skel (s s2 : ETLState) (r : Record) (rid now : Nat)
    (res : Except PyExc Nat) (h : process_medical_center s r rid now = (s2, res)) :
    etl_frame s s2 := by
  unfold process_medical_center at h
  dsimp only at h
  split at h <;> injection h with h1 h2 <;> subst h1 <;> exact etl_frame_rfl _

theorem process_product_skel (s s2 : ETLState) (r : Record) (now : Nat)
    (res : Except PyExc Nat) (h : process_product s r now = (s2, res)) :
    etl_frame s s2 := by
  unfold process_product at h
  dsimp only at h
  split at h
  · injection h with h1 h2
    subst h1
    exact etl_frame_rfl _
  · split at h
    · injection h with h1 h2
      subst h1
      exact etl_frame_rfl _
    · split at h <;> injection h with h1 h2 <;> subst h1 <;> exact etl_frame_rfl _

theorem process_inventory_skel (s s2 : ETLState) (r : Record) (cid pid today now : Nat)
    (res : Except PyExc Unit) (h : process_inventory s r cid pid today now = (s2, res)) :
    etl_frame s s2 := by
  unfold process_inventory at h
  split at h <;> injection h with h1 h2 <;> subst h1 <;> exact etl_frame_rfl _

/-- ETLProcessor._process_record leaves processed and errors (and the six
never-incremented counters) alone, updates the tracked latest report date
exactly when the record passes validation, and bumps skipped exactly when
it does not — on the success path and on every failure path alike. -/
theorem process_record_skel (today now : Nat) (s s2 : ETLState) (r : Record)
    (e : Option PyExc) (h : process_record today now s r = (s2, e)) :
    s2.latest_report_date =
      (if etl_validate_record r then track_latest s.latest_report_date r.fechareporte
       else s.latest_report_date) ∧
    s2.stats.processed = s.stats.processed ∧
    s2.stats.errors = s.stats.errors ∧
    s2.stats.skipped =
      (if etl_validate_record r then s.stats.skipped else s.stats.skipped + 1) ∧
    s2.stats.centers_created = s.stats.centers_created ∧
    s2.stats.centers_updated = s.stats.centers_updated ∧
    s2.stats.products_created = s.stats.products_created ∧
    s2.stats.products_updated = s.stats.products_updated ∧
    s2.stats.inventory_created = s.stats.inventory_created ∧
    s2.stats.inventory_updated = s.stats.inventory_updated := by
  unfold process_record at h
  by_cases hv : etl_validate_record r
  · simp only [hv, Bool.not_true, Bool.false_eq_true, if_false] at h
    simp only [hv, if_true]
    have hframe : etl_frame
        { s with latest_report_date := track_latest s.latest_report_date r.fechareporte }
        s2 := by
      split at h
      next s3 e3 heq3 =>
        injection h with h1 h2
        subst h1
        exact process_region_skel _ _ _ _ heq3
      next s3 rid heq3 =>
        have k1 := process_region_skel _ _ _ _ heq3
        split at h
        next s5 e5 heq5 =>
          injection h with h1 h2
          subst h1
          exact etl_frame_trans k1 (process_medical_center_skel _ _ _ _ _ _ heq5)
        next s5 cid heq5 =>
          have k2 := process_medical_center_skel _ _ _ _ _ _ heq5
          split at h
          next s7 e7 heq7 =>
            injection h with h1 h2
            subst h1
            exact etl_frame_trans (etl_frame_trans k1 k2)
              (process_product_skel _ _ _ _ _ heq7)
          next s7 pid heq7 =>
            have k3 := process_product_skel _ _ _ _ _ heq7
            split at h
            next s9 e9 heq9 =>
              injection h with h1 h2
              subst h1
              exact etl_frame_trans (etl_frame_trans (etl_frame_trans k1 k2) k3)
                (process_inventory_skel _ _ _ _ _ _ _ _ heq9)
            next s9 u heq9 =>
              have k4 := process_inventory_skel _ _ _ _ _ _ _ _ heq9
              injection h with h1 h2
              subst h1
              exact etl_frame_trans (etl_frame_trans (etl_frame_trans k1 k2) k3)
                (etl_frame_trans k4
                  ⟨rfl, rfl, rfl, rfl, rfl, rfl, rfl, rfl, rfl, rfl⟩)
    obtain ⟨f1, f2, f3, f4, f5, f6, f7, f8, f9, f10⟩ := hframe
    exact ⟨f1, f2, f3, f4, f5, f6, f7, f8, f9, f10⟩
  · simp only [hv, Bool.not_false, if_true] at h
    simp only [hv, Bool.false_eq_true, if_false]
    injection h with h1 h2
    subst h1
    exact ⟨rfl, rfl, rfl, rfl, rfl, rfl, rfl, rfl, rfl, rfl⟩

/-- A record failing ETL validation only bumps the skipped counter and
raises nothing. -/
theorem process_record_invalid (today now : Nat) (s : ETLState) (r : Record)
    (hv : etl_validate_record r = false) :
    process_record today now s r =
      ({ s with stats := { s.stats with skipped := s.stats.skipped + 1 } }, none) := by
  unfold process_record
  simp [hv]

/-- One iteration of the batch loop: the latest-date tracking of the record,
exactly one of processed/errors incremented, and the six never-incremented
counters preserved. -/
theorem batch_step_skel (today now : Nat) (s : ETLState) (r : Record) :
    (batch_step today now s r).latest_report_date =
      (if etl_validate_record r then track_latest s.latest_report_date r.fechareporte
       else s.latest_report_date) ∧
    (batch_step today now s r).stats.processed + (batch_step today now s r).stats.errors =
      s.stats.processed + s.stats.errors + 1 ∧
    (batch_step today now s r).stats.centers_created = s.stats.centers_created ∧
    (batch_step today now s r).stats.centers_updated = s.stats.centers_updated ∧
    (batch_step today now s r).stats.products_created = s.stats.products_created ∧
    (batch_step today now s r).stats.products_updated = s.stats.products_updated ∧
    (batch_step today now s r).stats.inventory_created = s.stats.inventory_created ∧
    (batch_step today now s r).stats.inventory_updated = s.stats.inventory_updated := by
  unfold batch_step
  rcases h : process_record today now s r with ⟨s2, e⟩
  obtain ⟨f1, f2, f3, _, f5, f6, f7, f8, f9, f10⟩ := process_record_skel today now s s2 r e h
  cases e with
  | none =>
      refine ⟨f1, ?_, f5, f6, f7, f8, f9, f10⟩
      show s2.stats.processed + 1 + s2.stats.errors = _
      omega
  | some e0 =>
      refine ⟨f1, ?_, f5, f6, f7, f8, f9, f10⟩
      show s2.stats.processed + (s2.stats.errors + 1) = _
      omega

theorem foldl_batch_step_latest (today now : Nat) :
    ∀ (records : List Record) (s : ETLState),
      (records.foldl (batch_step today now) s).latest_report_date =
        records.foldl
          (fun m q => if etl_validate_record q then track_latest m q.fechareporte else m)
          s.latest_report_date := by
  intro records
  induction records with
  | nil => intro s; rfl
  | cons r rs ih =>
      intro s
      simp only [List.foldl_cons]
      rw [ih, (batch_step_skel today now s r).1]

theorem foldl_batch_step_count (today now : Nat) :
    ∀ (records : List Record) (s : ETLState),
      (records.foldl (batch_step today now) s).stats.processed +
        (records.foldl (batch_step today now) s).stats.errors =
      s.stats.processed + s.stats.errors + records.length := by
  intro records
  induction records with
  | nil => intro s; simp
  | cons r rs ih =>
      intro s
      simp only [List.foldl_cons, List.length_cons]
      rw [ih, (batch_step_skel today now s r).2.1]
      omega

theorem foldl_batch_step_fixed (today now : Nat) :
    ∀ (records : List Record) (s : ETLState),
      (records.foldl (batch_step today now) s).stats.centers_created = s.stats.centers_created ∧
      (records.foldl (batch_step today now) s).stats.centers_updated = s.stats.centers_updated ∧
      (records.foldl (batch_step today now) s).stats.products_created = s.stats.products_created ∧
      (records.foldl (batch_step today now) s).stats.products_updated = s.stats.products_updated ∧
      (records.foldl (batch_step today now) s).stats.inventory_created = s.stats.inventory_created ∧
      (records.foldl (batch_step today now) s).stats.inventory_updated = s.stats.inventory_updated := by
  intro records
  induction records with
  | nil => intro s; exact ⟨rfl, rfl, rfl, rfl, rfl, rfl⟩
  | cons r rs ih =>
      intro s
      simp only [List.foldl_cons]
      obtain ⟨g1, g2, g3, g4, g5, g6⟩ := ih (batch_step today now s r)
      obtain ⟨_, _, b1, b2, b3, b4, b5, b6⟩ := batch_step_skel today now s r
      exact ⟨g1.trans b1, g2.trans b2, g3.trans b3, g4.trans b4, g5.trans b5, g6.trans b6⟩

/-- On a healthy pool, resolving a region succeeds, touches no other table,
makes the name present, and — when the name already exists — leaves the
regions table exactly as it was (no insert). -/
theorem get_or_create_region_spec (db : DB) (name : String) (hpool : db.pool_failures = 0) :
    ∃ rid db2,
      get_or_create_region db name = .ok (rid, db2) ∧
      db2.medical_centers = db.medical_centers ∧
      db2.product_types = db.product_types ∧
      db2.products = db.products ∧
      db2.inventory = db.inventory ∧
      db2.pool_failures = 0 ∧
      (∃ g ∈ db2.regions, g.name = name) ∧
      ((∃ g ∈ db.regions, g.name = name) → db2.regions = db.regions) := by
  unfold get_or_create_region
  rw [get_connection_healthy db hpool]
  dsimp only
  rcases hfind : db.regions.find? (fun r => r.name == name) with _ | r0 <;> rw [hfind]
  · refine ⟨db.next_region_id, _, rfl, rfl, rfl, rfl, rfl, hpool, ?_, ?_⟩
    · exact ⟨⟨db.next_region_id, name⟩, by simp, rfl⟩
    · rintro ⟨g, hg, hgname⟩
      have := List.find?_eq_none.mp hfind g hg
      simp [hgname] at this
  · refine ⟨r0.region_id, db, rfl, rfl, rfl, rfl, rfl, hpool, ?_, fun _ => rfl⟩
    have h1 := List.find?_some hfind
    simp only [beq_iff_eq] at h1
    exact ⟨r0, List.mem_of_find?_eq_some hfind, h1⟩

/-- On a healthy pool, resolving a facility succeeds, touches no other
table, and leaves a row with the incoming code present. -/
theorem get_or_create_medical_center_spec (db : DB) (d : CenterData) (now : Nat)
    (hpool : db.pool_failures = 0) :
    ∃ cid db2,
      get_or_create_medical_center db d now = .ok (cid, db2) ∧
      db2.regions = db.regions ∧
      db2.product_types = db.product_types ∧
      db2.products = db.products ∧
      db2.inventory = db.inventory ∧
      db2.pool_failures = 0 ∧
      (∃ c ∈ db2.medical_centers, c.code = d.code) := by
  unfold get_or_create_medical_center
  rw [get_connection_healthy db hpool]
  dsimp only
  rcases hfind : db.medical_centers.find? (fun c => c.code == d.code) with _ | c0 <;> rw [hfind]
  · exact ⟨db.next_center_id, _, rfl, rfl, rfl, rfl, rfl, hpool,
      ⟨⟨db.next_center_id, d.code, d.name, d.region_id, d.category, d.reporter_name,
        d.institution_type, d.reporter_type, now⟩, by simp, rfl⟩⟩
  · have hc0 := List.find?_some hfind
    have hcode : c0.code = d.code := beq_iff_eq.mp hc0
    refine ⟨c0.center_id, _, rfl, rfl, rfl, rfl, rfl, hpool, ?_⟩
    refine ⟨_, List.mem_map_of_mem _ (List.mem_of_find?_eq_some hfind), ?_⟩
    simp only [hc0, if_true]
    exact hcode

/-- On a healthy pool, resolving a product succeeds, touches no other table,
and leaves a row with the incoming code present. -/
theorem get_or_create_product_spec (db : DB) (d : ProductData) (now : Nat)
    (hpool : db.pool_failures = 0) :
    ∃ pid db2,
      get_or_create_product db d now = .ok (pid, db2) ∧
      db2.regions = db.regions ∧
      db2.medical_centers = db.medical_centers ∧
      db2.product_types = db.product_types ∧
      db2.inventory = db.inventory ∧
      db2.pool_failures = 0 ∧
      (∃ p ∈ db2.products, p.code = d.code) := by
  unfold get_or_create_product
  rw [get_connection_healthy db hpool]
  dsimp only
  rcases hfind : db.products.find? (fun p => p.code == d.code) with _ | p0 <;> rw [hfind]
  · exact ⟨db.next_product_id, _, rfl, rfl, rfl, rfl, rfl, hpool,
      ⟨⟨db.next_product_id, d.code, d.name, d.type_id, now⟩, by simp, rfl⟩⟩
  · have hp0 := List.find?_some hfind
    have hcode : p0.code = d.code := beq_iff_eq.mp hp0
    refine ⟨p0.product_id, _, rfl, rfl, rfl, rfl, rfl, hpool, ?_⟩
    refine ⟨_, List.mem_map_of_mem _ (List.mem_of_find?_eq_some hfind), ?_⟩
    simp only [hp0, if_true]
    exact hcode

/-- The seeded product_types list extends the original by rows whose codes
are all M or I, and afterwards both an M row and an I row are present. -/
theorem seed_product_types_shape (l : List ProductTypeRow) (n : Nat) :
    ∃ rest : List ProductTypeRow,
      (seed_product_types l n).1 = l ++ rest ∧
      (∃ t ∈ (seed_product_types l n).1, t.code = "M") ∧
      (∃ t ∈ (seed_product_types l n).1, t.code = "I") ∧
      (∀ t ∈ rest, t.code = "M" ∨ t.code = "I") := by
  by_cases hM : (l.any (fun t => t.code == "M")) = true
  · by_cases hI : (l.any (fun t => t.code == "I")) = true
    · have hseed : (seed_product_types l n).1 = l := by
        unfold seed_product_types
        dsimp only
        rw [if_pos hM]
        dsimp only
        rw [if_pos hI]
      obtain ⟨tm, htm, htmc⟩ := List.any_eq_true.mp hM
      obtain ⟨ti, hti, htic⟩ := List.any_eq_true.mp hI
      simp only [beq_iff_eq] at htmc htic
      refine ⟨[], by simp [hseed], ?_, ?_, ?_⟩
      · exact ⟨tm, by rw [hseed]; exact htm, htmc⟩
      · exact ⟨ti, by rw [hseed]; exact hti, htic⟩
      · intro t ht
        simp at ht
    · have hseed : (seed_product_types l n).1 = l ++ [⟨n, "I", "Instrument/Supply"⟩] := by
        unfold seed_product_types
        dsimp only
        rw [if_pos hM]
        dsimp only
        rw [if_neg hI]
      obtain ⟨tm, htm, htmc⟩ := List.any_eq_true.mp hM
      simp only [beq_iff_eq] at htmc
      refine ⟨[⟨n, "I", "Instrument/Supply"⟩], hseed, ?_, ?_, ?_⟩
      · exact ⟨tm, by rw [hseed]; exact List.mem_append_left _ htm, htmc⟩
      · exact ⟨⟨n, "I", "Instrument/Supply"⟩, by rw [hseed]; simp, rfl⟩
      · intro t ht
        simp only [List.mem_singleton] at ht
        subst ht
        exact Or.inr rfl
  · by_cases hI : ((l ++ [(⟨n, "M", "Medicine"⟩ : ProductTypeRow)]).any (fun t => t.code == "I")) = true
    · have hseed : (seed_product_types l n).1 = l ++ [⟨n, "M", "Medicine"⟩] := by
        unfold seed_product_types
        dsimp only
        rw [if_neg hM]
        dsimp only
        rw [if_pos hI]
      obtain ⟨ti, hti, htic⟩ := List.any_eq_true.mp hI
      simp only [beq_iff_eq] at htic
      refine ⟨[⟨n, "M", "Medicine"⟩], hseed, ?_, ?_, ?_⟩
      · exact ⟨⟨n, "M", "Medicine"⟩, by rw [hseed]; simp, rfl⟩
      · exact ⟨ti, by rw [hseed]; exact hti, htic⟩
      · intro t ht
        simp only [List.mem_singleton] at ht
        subst ht
        exact Or.inl rfl
    · have hseed : (seed_product_types l n).1 =
          (l ++ [⟨n, "M", "Medicine"⟩]) ++ [⟨n + 1, "I", "Instrument/Supply"⟩] := by
        unfold seed_product_types
        dsimp only
        rw [if_neg hM]
        dsimp only
        rw [if_neg hI]
      refine ⟨[⟨n, "M", "Medicine"⟩, ⟨n + 1, "I", "Instrument/Supply"⟩],
        by rw [hseed]; simp, ?_, ?_, ?_⟩
      · exact ⟨⟨n, "M", "Medicine"⟩, by rw [hseed]; simp, rfl⟩
      · exact ⟨⟨n + 1, "I", "Instrument/Supply"⟩, by rw [hseed]; simp, rfl⟩
      · intro t ht
        simp at ht
        rcases ht with rfl | rfl
        · exact Or.inl rfl
        · exact Or.inr rfl

/-- On a healthy pool and a product_types table holding only the seeded
codes, looking up any other code returns None (after committing the seeding
write), touching no other table. -/
theorem get_product_type_id_invalid (db : DB) (code : String) (hpool : db.pool_failures = 0)
    (hall : ∀ t ∈ db.product_types, t.code = "M" ∨ t.code = "I")
    (hm : code ≠ "M") (hi : code ≠ "I") :
    ∃ db2, get_product_type_id db code = .ok (none, db2) ∧
      db2.regions = db.regions ∧
      db2.medical_centers = db.medical_centers ∧
      db2.products = db.products ∧
      db2.inventory = db.inventory ∧
      db2.pool_failures = 0 ∧
      (∀ t ∈ db2.product_types, t.code = "M" ∨ t.code = "I") := by
  have hnone : ∀ (l : List ProductTypeRow), (∀ t ∈ l, t.code = "M" ∨ t.code = "I") →
      l.find? (fun t => t.code == code) = none := by
    intro l hl
    rw [List.find?_eq_none]
    intro t ht hcontra
    simp only [beq_iff_eq] at hcontra
    rcases hl t ht with h | h
    · exact hm (hcontra ▸ h)
    · exact hi (hcontra ▸ h)
  unfold get_product_type_id
  rw [get_connection_healthy db hpool]
  dsimp only
  rw [hnone db.product_types hall]
  dsimp only
  obtain ⟨rest, hshape, _, _, hrest⟩ :=
    seed_product_types_shape db.product_types db.next_type_id
  have hall2 : ∀ t ∈ (seed_product_types db.product_types db.next_type_id).1,
      t.code = "M" ∨ t.code = "I" := by
    intro t ht
    rw [hshape] at ht
    rcases List.mem_append.mp ht with h | h
    · exact hall t h
    · exact hrest t h
  rw [hnone _ hall2]
  exact ⟨_, rfl, rfl, rfl, rfl, rfl, hpool, hall2⟩

/-- On a healthy pool, looking up code M or I always succeeds (directly, or
after seeding the defaults), touching no table besides product_types. -/
theorem get_product_type_id_mi (db : DB) (code : String) (hpool : db.pool_failures = 0)
    (hcode : code = "M" ∨ code = "I") :
    ∃ tid db2, get_product_type_id db code = .ok (some tid, db2) ∧
      db2.regions = db.regions ∧
      db2.medical_centers = db.medical_centers ∧
      db2.products = db.products ∧
      db2.inventory = db.inventory ∧
      db2.pool_failures = 0 := by
  unfold get_product_type_id
  rw [get_connection_healthy db hpool]
  dsimp only
  rcases hfind : db.product_types.find? (fun t => t.code == code) with _ | t0 <;> rw [hfind]
  · dsimp only
    obtain ⟨rest, hshape, hMm, hIm, _⟩ :=
      seed_product_types_shape db.product_types db.next_type_id
    have hex : ∃ t ∈ (seed_product_types db.product_types db.next_type_id).1,
        (t.code == code) = true := by
      rcases hcode with rfl | rfl
      · obtain ⟨t, ht, htc⟩ := hMm
        exact ⟨t, ht, by simp [htc]⟩
      · obtain ⟨t, ht, htc⟩ := hIm
        exact ⟨t, ht, by simp [htc]⟩
    obtain ⟨t1, hfind2⟩ := Option.isSome_iff_exists.mp (List.find?_isSome.mpr hex)
    rw [hfind2]
    exact ⟨t1.type_id, _, rfl, rfl, rfl, rfl, rfl, hpool⟩
  · exact ⟨t0.type_id, db, rfl, rfl, rfl, rfl, rfl, hpool⟩

/-- On a healthy pool, the inventory upsert succeeds, touches only the
inventory table, and leaves a row carrying the incoming key, measurement
and status values with a refreshed timestamp. -/
theorem update_inventory_spec (db : DB) (d : InventoryData) (now : Nat)
    (hpool : db.pool_failures = 0) :
    ∃ db2, update_inventory db d now = .ok db2 ∧
      db2.regions = db.regions ∧
      db2.medical_centers = db.medical_centers ∧
      db2.product_types = db.product_types ∧
      db2.products = db.products ∧
      db2.pool_failures = 0 ∧
      ∃ row ∈ db2.inventory,
        row.center_id = d.center_id ∧ row.product_id = d.product_id ∧
        row.report_date = d.report_date ∧ row.current_stock = d.current_stock ∧
        row.status = d.status ∧ row.status_indicator = d.status_indicator ∧
        row.updated_at = now := by
  unfold update_inventory
  rw [get_connection_healthy db hpool]
  dsimp only
  by_cases hany : (db.inventory.any (same_inv_key d)) = true
  · rw [if_pos hany]
    obtain ⟨r0, hr0, hkey⟩ := List.any_eq_true.mp hany
    have hkey2 := hkey
    simp only [same_inv_key, Bool.and_eq_true, beq_iff_eq] at hkey2
    refine ⟨_, rfl, rfl, rfl, rfl, rfl, hpool, ?_⟩
    refine ⟨_, List.mem_map_of_mem _ hr0, ?_⟩
    simp only [hkey, if_true]
    exact ⟨hkey2.1.1, hkey2.1.2, hkey2.2, rfl, rfl, rfl, rfl⟩
  · rw [if_neg hany]
    exact ⟨_, rfl, rfl, rfl, rfl, rfl, hpool,
      ⟨inv_insert d db.next_inventory_id now, by simp,
        rfl, rfl, rfl, rfl, rfl, rfl, rfl⟩⟩

/-- C4 counterexample: a validated record whose pipeline later fails (its
product type code is invalid) is counted as an error, is not counted as
processed, and nevertheless updates the tracked maximum report date — the
claim says a failed record does not update the maximum. -/
theorem C4_failed_record_counterexample :
    (process_records 9 7 (ETLState.init DB.empty) [sample_bad_type]).stats.errors = 1 ∧
    (process_records 9 7 (ETLState.init DB.empty) [sample_bad_type]).stats.processed = 0 ∧
    (process_records 9 7 (ETLState.init DB.empty) [sample_bad_type]).latest_report_date =
      some 20240202 := by
  decide

/-- C4 (amended): the tracked maximum report date is the maximum over the
dates of exactly the records that pass record-level validation — including
records whose later pipeline steps fail — while records skipped by
validation never update it, and validated records always carry a date (so
absent dates never contribute). -/
theorem C4_latest_date_amended :
    (∀ (today now : Nat) (s : ETLState) (records : List Record),
       (process_records today now s records).latest_report_date =
         records.foldl
           (fun m q => if etl_validate_record q then track_latest m q.fechareporte else m)
           s.latest_report_date) ∧
    (∀ q : Record, etl_validate_record q = true → q.fechareporte.isSome = true) := by
  constructor
  · intro today now s records
    rw [process_records_eq_foldl]
    exact foldl_batch_step_latest today now records s
  · intro q hq
    unfold etl_validate_record at hq
    simp only [Bool.and_eq_true] at hq
    exact hq.1.2

/-- Witness for C4: the amended theorem applied to a concrete run and a
concrete validated record. -/
theorem C4_latest_date_witness :
    (process_records 9 7 (ETLState.init DB.empty) [sample_record]).latest_report_date =
      [sample_record].foldl
        (fun m q => if etl_validate_record q then track_latest m q.fechareporte else m)
        (ETLState.init DB.empty).latest_report_date ∧
    sample_record.fechareporte.isSome = true :=
  ⟨C4_latest_date_amended.1 9 7 (ETLState.init DB.empty) [sample_record],
   C4_latest_date_amended.2 sample_record (by decide)⟩

/-- C5 counterexample: with the pool exhausted beyond the retry budget, a
record's processing raises the infrastructure OperationalError, yet the
orchestrator catches it as a per-record error and the run exits 0 — the
claim says such an error propagates to the top level and exits non-zero. -/
theorem C5_infra_error_counterexample :
    (process_record 9 7 (ETLState.init broken_db) sample_record).2 =
      some .operationalError ∧
    (process_records 9 7 (ETLState.init broken_db) [sample_record]).stats.errors = 1 ∧
    main_run (.ok broken_db) (.ok [sample_record]) 9 7 = 0 := by
  decide

/-- C5 (amended): per-record errors never unwind the run and a run that
reaches record processing always exits 0 — even when records raised
infrastructure errors, which the orchestrator catches per record; only
failures of connection setup or file parsing propagate to the top level and
exit 1; connection acquisition raises OperationalError exactly when the
pool fails at least the full retry budget of 3 attempts. -/
theorem C5_exit_status_amended :
    (∀ (db : DB) (records : List Record) (today now : Nat),
       main_run (.ok db) (.ok records) today now = 0) ∧
    (∀ (e : PyExc) (parsed : Except PyExc (List Record)) (today now : Nat),
       main_run (.error e) parsed today now = 1) ∧
    (∀ (db : DB) (e : PyExc) (today now : Nat),
       main_run (.ok db) (.error e) today now = 1) ∧
    (∀ db : DB, 3 ≤ db.pool_failures → get_connection db = .error .operationalError) ∧
    (∀ db : DB, db.pool_failures < 3 → ∃ db2, get_connection db = .ok db2) :=
  ⟨fun _ _ _ _ => rfl, fun _ _ _ _ => rfl, fun _ _ _ _ => rfl,
   get_connection_exhausted, get_connection_recovers⟩

/-- Witness for C5: the amended theorem applied at concrete inputs, with
the retry-budget hypotheses discharged on concrete pools. -/
theorem C5_exit_status_witness :
    main_run (.ok DB.empty) (.ok [sample_record]) 9 7 = 0 ∧
    main_run (.error .operationalError) (.ok []) 9 7 = 1 ∧
    main_run (.ok DB.empty) (.error .operationalError) 9 7 = 1 ∧
    get_connection broken_db = .error .operationalError ∧
    (∃ db2, get_connection DB.empty = .ok db2) :=
  ⟨C5_exit_status_amended.1 DB.empty [sample_record] 9 7,
   C5_exit_status_amended.2.1 .operationalError (.ok []) 9 7,
   C5_exit_status_amended.2.2.1 DB.empty .operationalError 9 7,
   C5_exit_status_amended.2.2.2.1 broken_db (by decide),
   C5_exit_status_amended.2.2.2.2 DB.empty (by decide)⟩

/-- C9: after process_records every input record has incremented exactly
one of processed or errors, so their sum equals the number of input
records; and a record rejected by record-level validation increments both
skipped and processed (skipped is included in processed, not disjoint). -/
theorem C9_processed_errors_partition :
    (∀ (db : DB) (records : List Record) (today now : Nat),
       (process_records today now (ETLState.init db) records).stats.processed +
         (process_records today now (ETLState.init db) records).stats.errors =
         records.length) ∧
    (∀ (today now : Nat) (s : ETLState) (r : Record), etl_validate_record r = false →
       (batch_step today now s r).stats.skipped = s.stats.skipped + 1 ∧
       (batch_step today now s r).stats.processed = s.stats.processed + 1) := by
  constructor
  · intro db records today now
    simp only [process_records_eq_foldl]
    have h := foldl_batch_step_count today now records (ETLState.init db)
    simpa [ETLState.init, Stats.init] using h
  · intro today now s r hv
    unfold batch_step
    rw [process_record_invalid today now s r hv]
    exact ⟨rfl, rfl⟩

/-- Witness for C9: the theorem applied to a concrete run and to a concrete
record with an absent report date. -/
theorem C9_processed_errors_witness :
    (process_records 9 7 (ETLState.init DB.empty) [sample_record, sample_no_date]).stats.processed +
      (process_records 9 7 (ETLState.init DB.empty) [sample_record, sample_no_date]).stats.errors =
      [sample_record, sample_no_date].length ∧
    (batch_step 9 7 (ETLState.init DB.empty) sample_no_date).stats.skipped =
      (ETLState.init DB.empty).stats.skipped + 1 ∧
    (batch_step 9 7 (ETLState.init DB.empty) sample_no_date).stats.processed =
      (ETLState.init DB.empty).stats.processed + 1 :=
  ⟨C9_processed_errors_partition.1 DB.empty [sample_record, sample_no_date] 9 7,
   C9_processed_errors_partition.2 9 7 (ETLState.init DB.empty) sample_no_date (by decide)⟩

/-- C10: the six centers/products/inventory created/updated counters are
never incremented by any operation and stay 0 for every run, while
regions_created is incremented on every successful region resolution, also
when the region already existed — no region row is inserted then, yet the
counter still grows. -/
theorem C10_unused_counters_and_region_count :
    (∀ (db : DB) (records : List Record) (today now : Nat),
       (process_records today now (ETLState.init db) records).stats.centers_created = 0 ∧
       (process_records today now (ETLState.init db) records).stats.centers_updated = 0 ∧
       (process_records today now (ETLState.init db) records).stats.products_created = 0 ∧
       (process_records today now (ETLState.init db) records).stats.products_updated = 0 ∧
       (process_records today now (ETLState.init db) records).stats.inventory_created = 0 ∧
       (process_records today now (ETLState.init db) records).stats.inventory_updated = 0) ∧
    (∀ (s : ETLState) (r : Record), s.db.pool_failures = 0 →
       (r.diresa == "" || ["NULL", "NONE", ""].contains (py_upper r.diresa)) = false →
       (process_region s r).1.stats.regions_created = s.stats.regions_created + 1 ∧
       ((∃ g ∈ s.db.regions, g.name = r.diresa) →
         (process_region s r).1.db.regions = s.db.regions)) := by
  constructor
  · intro db records today now
    simp only [process_records_eq_foldl]
    exact foldl_batch_step_fixed today now records (ETLState.init db)
  · intro s r hpool hname
    unfold process_region
    dsimp only
    rw [hname]
    simp only [Bool.false_eq_true, if_false]
    obtain ⟨rid, db2, heq, _, _, _, _, _, _, hpres⟩ :=
      get_or_create_region_spec s.db r.diresa hpool
    rw [heq]
    exact ⟨rfl, fun hex => hpres hex⟩

/-- Witness for C10: the theorem applied to a concrete run, and to a state
whose store already holds the region of the incoming record. -/
theorem C10_counters_witness :
    ((process_records 9 7 (ETLState.init DB.empty) [sample_record]).stats.centers_created = 0 ∧
     (process_records 9 7 (ETLState.init DB.empty) [sample_record]).stats.centers_updated = 0 ∧
     (process_records 9 7 (ETLState.init DB.empty) [sample_record]).stats.products_created = 0 ∧
     (process_records 9 7 (ETLState.init DB.empty) [sample_record]).stats.products_updated = 0 ∧
     (process_records 9 7 (ETLState.init DB.empty) [sample_record]).stats.inventory_created = 0 ∧
     (process_records 9 7 (ETLState.init DB.empty) [sample_record]).stats.inventory_updated = 0) ∧
    (process_region region_state sample_record).1.stats.regions_created =
      region_state.stats.regions_created + 1 ∧
    ((∃ g ∈ region_state.db.regions, g.name = sample_record.diresa) →
      (process_region region_state sample_record).1.db.regions = region_state.db.regions) :=
  ⟨C10_unused_counters_and_region_count.1 DB.empty [sample_record] 9 7,
   C10_unused_counters_and_region_count.2 region_state sample_record rfl (by decide)⟩

/-- C7: a split line with fewer than 25 fields, or with a value at position
0, 1, 2, 3, 6, 7 or 8 that is empty after stripping, is excluded from the
parse output, increments the error count by exactly one, and parsing of the
surrounding lines is unaffected. -/
theorem C7_malformed_line_rejected (pre post : List (List String)) (l : List String)
    (hbad : l.length < COLUMNS.length ∨
      ∃ i ∈ REQUIRED_INDICES, py_strip (l.getD i "") = "") :
    parse_lines (pre ++ l :: post) =
      ((parse_lines (pre ++ post)).1, (parse_lines (pre ++ post)).2 + 1) := by
  have hval : parser_validate_record l = false := by
    unfold parser_validate_record
    rcases hbad with h | ⟨i, hi, hstrip⟩
    · rw [if_pos h]
    · by_cases hlen : l.length < COLUMNS.length
      · rw [if_pos hlen]
      · rw [if_neg hlen]
        have hstrip2 : py_strip (l[i]?.getD "") = "" := by
          have h0 : l.getD i "" = l[i]?.getD "" := by simp [List.getD]
          rw [← h0]
          exact hstrip
        exact List.all_eq_false.mpr ⟨i, hi, by simp [hstrip2]⟩
  rcases hpre : parse_lines pre with ⟨R, E⟩
  have hfold : ∀ tail : List (List String),
      parse_lines (pre ++ tail) = List.foldl parse_step (R, E) tail := by
    intro tail
    show List.foldl parse_step ([], 0) (pre ++ tail) = _
    rw [List.foldl_append]
    have h0 : List.foldl parse_step ([], 0) pre = (R, E) := hpre
    rw [h0]
  rw [hfold (l :: post), hfold post]
  show List.foldl parse_step (parse_step (R, E) l) post = _
  rw [show parse_step (R, E) l = (R, E + 1) from by simp [parse_step, hval]]
  rw [parse_lines_from post R (E + 1), parse_lines_from post R E]
  refine Prod.ext rfl ?_
  show E + 1 + (parse_lines post).2 = E + (parse_lines post).2 + 1
  omega

/-- Witness for C7: a concrete three-field line between two contexts. -/
theorem C7_malformed_line_witness :
    parse_lines ([] ++ bad_line :: [good_line]) =
      ((parse_lines ([] ++ [good_line])).1, (parse_lines ([] ++ [good_line])).2 + 1) :=
  C7_malformed_line_rejected [] [good_line] bad_line (Or.inl (by decide))

/-- C8: numeric coercion sends the null literal in any case and the empty
string to an absent value, otherwise parses the text as a decimal after
normalizing a comma separator to a period (so a comma literal parses to the
same number as its period form), a failing parse yields an absent value,
and a validated line is still produced with error count 0, whatever its
numeric fields hold. -/
theorem C8_numeric_coercion :
    (∀ s : String, py_lower s = "null" → coerce_numeric s = none) ∧
    coerce_numeric "" = none ∧
    (∀ s : String, s ≠ "" → py_lower s ≠ "null" →
      coerce_numeric s = parse_decimal (replace_comma s)) ∧
    coerce_numeric "12,5" = coerce_numeric "12.5" ∧
    coerce_numeric "12,5" = some ((25 : ℚ) / 2) ∧
    coerce_numeric "abc" = none ∧
    (∀ values : List String, parser_validate_record values = true →
      parse_lines [values] = ([create_record values], 0)) := by
  have hgen : ∀ s : String, s ≠ "" → py_lower s ≠ "null" →
      coerce_numeric s = parse_decimal (replace_comma s) := by
    intro s h1 h2
    have hb1 : (s == "") = false := by simp [h1]
    have hb2 : (py_lower s == "null") = false := by simp [h2]
    unfold coerce_numeric
    rw [hb1, hb2]
    rfl
  have hcomma : replace_comma "12,5" = "12.5" := by decide
  have hid : replace_comma "12.5" = "12.5" := by decide
  have hval : parse_decimal "12.5" = some ((25 : ℚ) / 2) := by
    have h : parse_decimal "12.5" =
        some ((1 : ℚ) * (((12 : Nat) : ℚ) + ((5 : Nat) : ℚ) / (10 : ℚ) ^ (1 : Nat))) := by
      rfl
    rw [h]
    norm_num
  refine ⟨?_, by decide, hgen, ?_, ?_, by decide, ?_⟩
  · intro s h
    unfold coerce_numeric
    simp [h]
  · rw [hgen "12,5" (by decide) (by decide), hgen "12.5" (by decide) (by decide),
      hcomma, hid]
  · rw [hgen "12,5" (by decide) (by decide), hcomma]
    exact hval
  · intro v hv
    show List.foldl parse_step ([], 0) [v] = _
    simp [parse_step, hv]

/-- Witness for C8: the coercion theorem applied to concrete strings and a
concrete validated line. -/
theorem C8_numeric_coercion_witness :
    coerce_numeric "NULL" = none ∧
    coerce_numeric "1,5" = parse_decimal (replace_comma "1,5") ∧
    parse_lines [good_line] = ([create_record good_line], 0) :=
  ⟨C8_numeric_coercion.1 "NULL" (by decide),
   C8_numeric_coercion.2.2.1 "1,5" (by decide) (by decide),
   C8_numeric_coercion.2.2.2.2.2.2 good_line (by decide)⟩

/-- C1: reconciliation zeroes the stock and sets the fixed out-of-stock
marker for exactly the inventory rows whose report date is strictly before
the cutoff and whose stock is strictly positive, leaves every other row
unchanged, and returns the number of rows affected. -/
theorem C1_reconciliation_exact (db : DB) (d now : Nat) (hpool : db.pool_failures = 0) :
    ∀ cnt db2, mark_missing_inventory_as_zero db d now = .ok (cnt, db2) →
      cnt = (db.inventory.filter (fun r =>
        decide (r.report_date < d) && decide ((0 : ℚ) < r.current_stock))).length ∧
      db2.inventory.length = db.inventory.length ∧
      ∀ (i : Nat) (h1 : i < db.inventory.length) (h2 : i < db2.inventory.length),
        ((db.inventory[i].report_date < d ∧ (0 : ℚ) < db.inventory[i].current_stock) →
          db2.inventory[i] =
            { db.inventory[i] with
                current_stock := 0, updated_at := now,
                status_indicator := "Desabastecido" }) ∧
        (¬(db.inventory[i].report_date < d ∧ (0 : ℚ) < db.inventory[i].current_stock) →
          db2.inventory[i] = db.inventory[i]) := by
  intro cnt db2 heq
  unfold mark_missing_inventory_as_zero at heq
  rw [get_connection_healthy db hpool] at heq
  dsimp only at heq
  injection heq with heq
  injection heq with hcnt hdb
  subst hcnt
  subst hdb
  refine ⟨?_, List.length_map _ _, ?_⟩
  · have hsr : stale_row d = (fun r : InventoryRow =>
        decide (r.report_date < d) && decide ((0 : ℚ) < r.current_stock)) := by
      funext r
      rfl
    rw [hsr, List.countP_eq_length_filter]
  · intro i h1 h2
    dsimp only at h2 ⊢
    rw [List.getElem_map]
    by_cases hst : stale_row d db.inventory[i] = true
    · have hprop : db.inventory[i].report_date < d ∧
          (0 : ℚ) < db.inventory[i].current_stock := by
        simpa [stale_row] using hst
      rw [if_pos hst]
      exact ⟨fun _ => rfl, fun hc => absurd hprop hc⟩
    · have hprop : ¬(db.inventory[i].report_date < d ∧
          (0 : ℚ) < db.inventory[i].current_stock) := by
        simpa [stale_row] using hst
      rw [if_neg hst]
      exact ⟨fun hc => absurd hc hprop, fun _ => rfl⟩

/-- Witness for C1: the reconciliation theorem applied to a concrete store
holding one stale and one fresh row, at cutoff 20240202 and clock 77. -/
theorem C1_reconciliation_witness :
    (1 : Nat) = (inv_db.inventory.filter (fun r =>
      decide (r.report_date < 20240202) && decide ((0 : ℚ) < r.current_stock))).length ∧
    inv_db_after.inventory.length = inv_db.inventory.length ∧
    ∀ (i : Nat) (h1 : i < inv_db.inventory.length) (h2 : i < inv_db_after.inventory.length),
      ((inv_db.inventory[i].report_date < 20240202 ∧
          (0 : ℚ) < inv_db.inventory[i].current_stock) →
        inv_db_after.inventory[i] =
          { inv_db.inventory[i] with
              current_stock := 0, updated_at := 77,
              status_indicator := "Desabastecido" }) ∧
      (¬(inv_db.inventory[i].report_date < 20240202 ∧
          (0 : ℚ) < inv_db.inventory[i].current_stock) →
        inv_db_after.inventory[i] = inv_db.inventory[i]) :=
  C1_reconciliation_exact inv_db 20240202 77 rfl 1 inv_db_after rfl

/-- The upsert map of an existing key preserves the natural key of every
row, so the key predicate is invariant under it. -/
theorem same_inv_key_comp (d : InventoryData) (now : Nat) :
    (same_inv_key d ∘ fun r => if same_inv_key d r then inv_overwrite d now r else r) =
      same_inv_key d := by
  funext r
  dsimp [Function.comp]
  by_cases h : same_inv_key d r = true
  · rw [if_pos h]
    rfl
  · rw [if_neg h]

/-- Under the table uniqueness constraint at most one row matches a key. -/
theorem countP_key_le_one (d : InventoryData) (inv : List InventoryRow)
    (h : inv_keys_unique inv) : inv.countP (same_inv_key d) ≤ 1 := by
  induction inv with
  | nil => simp
  | cons r rs ih =>
      rw [List.countP_cons]
      have hp := List.pairwise_cons.mp h
      by_cases hr : same_inv_key d r = true
      · have hzero : rs.countP (same_inv_key d) = 0 := by
          rw [List.countP_eq_zero]
          intro b hb hbkey
          have h1 := hp.1 b hb
          simp only [same_inv_key, Bool.and_eq_true, beq_iff_eq] at hr hbkey
          exact h1 ⟨hr.1.1.trans hbkey.1.1.symm, hr.1.2.trans hbkey.1.2.symm,
            hr.2.trans hbkey.2.symm⟩
        simp [hr, hzero]
      · have := ih hp.2
        simp [hr]
        omega

/-- One upsert on a healthy pool yields a store where exactly one row bears
the incoming key, and the uniqueness constraint still holds. -/
theorem upsert_key_count (db : DB) (d : InventoryData) (now : Nat)
    (hpool : db.pool_failures = 0) (huniq : inv_keys_unique db.inventory) :
    ∃ db1, update_inventory db d now = .ok db1 ∧
      inv_keys_unique db1.inventory ∧
      db1.pool_failures = 0 ∧
      db1.inventory.countP (same_inv_key d) = 1 := by
  unfold update_inventory
  rw [get_connection_healthy db hpool]
  dsimp only
  by_cases hany : (db.inventory.any (same_inv_key d)) = true
  · rw [if_pos hany]
    refine ⟨_, rfl, ?_, hpool, ?_⟩
    · unfold inv_keys_unique at huniq ⊢
      refine List.Pairwise.map _ ?_ huniq
      intro a b hab hcontra
      apply hab
      have hka : ∀ r : InventoryRow,
          ((if same_inv_key d r then inv_overwrite d now r else r).center_id = r.center_id ∧
           (if same_inv_key d r then inv_overwrite d now r else r).product_id = r.product_id ∧
           (if same_inv_key d r then inv_overwrite d now r else r).report_date = r.report_date) := by
        intro r
        by_cases h : same_inv_key d r = true
        · rw [if_pos h]
          exact ⟨rfl, rfl, rfl⟩
        · rw [if_neg h]
          exact ⟨rfl, rfl, rfl⟩
      obtain ⟨a1, a2, a3⟩ := hka a
      obtain ⟨b1, b2, b3⟩ := hka b
      exact ⟨(a1.symm.trans hcontra.1).trans b1, (a2.symm.trans hcontra.2.1).trans b2,
        (a3.symm.trans hcontra.2.2).trans b3⟩
    · rw [List.countP_map, same_inv_key_comp]
      have hle := countP_key_le_one d db.inventory huniq
      have hge : 0 < db.inventory.countP (same_inv_key d) :=
        List.countP_pos_iff.mpr (List.any_eq_true.mp hany)
      omega
  · rw [if_neg hany]
    have hnone : ∀ a ∈ db.inventory, ¬ same_inv_key d a = true := by
      intro a ha hc
      exact hany (List.any_eq_true.mpr ⟨a, ha, hc⟩)
    refine ⟨_, rfl, ?_, hpool, ?_⟩
    · unfold inv_keys_unique at huniq ⊢
      rw [List.pairwise_append]
      refine ⟨huniq, List.pairwise_singleton _ _, ?_⟩
      intro a ha b hb
      simp only [List.mem_singleton] at hb
      subst hb
      intro hcontra
      apply hnone a ha
      simp only [same_inv_key, Bool.and_eq_true, beq_iff_eq]
      exact ⟨⟨hcontra.1, hcontra.2.1⟩, hcontra.2.2⟩
    · rw [List.countP_append]
      have h0 : db.inventory.countP (same_inv_key d) = 0 :=
        List.countP_eq_zero.mpr hnone
      have h1 : List.countP (same_inv_key d) [inv_insert d db.next_inventory_id now] = 1 := by
        simp [List.countP_cons, same_inv_key, inv_insert]
      omega

/-- When a row with the incoming key exists, the upsert takes the conflict
branch: the match count is unchanged and every row matching the key now
carries the incoming values and the fresh timestamp. -/
theorem upsert_overwrites (db : DB) (d : InventoryData) (now : Nat)
    (hpool : db.pool_failures = 0) (hany : db.inventory.any (same_inv_key d) = true) :
    ∃ db2, update_inventory db d now = .ok db2 ∧
      db2.inventory.countP (same_inv_key d) = db.inventory.countP (same_inv_key d) ∧
      ∀ r ∈ db2.inventory, same_inv_key d r = true →
        r.current_stock = d.current_stock ∧
        r.avg_monthly_consumption = d.avg_monthly_consumption ∧
        r.accumulated_consumption_4m = d.accumulated_consumption_4m ∧
        r.measurement = d.measurement ∧
        r.last_month_consumption = d.last_month_consumption ∧
        r.last_month_stock = d.last_month_stock ∧
        r.status_indicator = d.status_indicator ∧
        r.cpma_12_months_ago = d.cpma_12_months_ago ∧
        r.cpma_24_months_ago = d.cpma_24_months_ago ∧
        r.cpma_36_months_ago = d.cpma_36_months_ago ∧
        r.accumulated_consumption_12m = d.accumulated_consumption_12m ∧
        r.status = d.status ∧
        r.updated_at = now := by
  unfold update_inventory
  rw [get_connection_healthy db hpool]
  dsimp only
  rw [if_pos hany]
  refine ⟨_, rfl, ?_, ?_⟩
  · rw [List.countP_map, same_inv_key_comp]
  · intro r hr hkey
    obtain ⟨r0, hr0, hr0eq⟩ := List.mem_map.mp hr
    by_cases h0 : same_inv_key d r0 = true
    · rw [if_pos h0] at hr0eq
      subst hr0eq
      exact ⟨rfl, rfl, rfl, rfl, rfl, rfl, rfl, rfl, rfl, rfl, rfl, rfl, rfl⟩
    · rw [if_neg h0] at hr0eq
      subst hr0eq
      exact absurd hkey h0

/-- C2: for two upserts with the same (facility, product, report date)
natural key and different measurement values, afterwards exactly one
inventory row bears that key, and its stock, measurement and status fields
equal the later upsert, with the updated timestamp set by the later call. -/
theorem C2_upsert_last_write_wins (db : DB) (d1 d2 : InventoryData) (now1 now2 : Nat)
    (hpool : db.pool_failures = 0)
    (huniq : inv_keys_unique db.inventory)
    (hkey : d1.center_id = d2.center_id ∧ d1.product_id = d2.product_id ∧
      d1.report_date = d2.report_date) :
    ∃ db1 db2,
      update_inventory db d1 now1 = .ok db1 ∧
      update_inventory db1 d2 now2 = .ok db2 ∧
      db2.inventory.countP (same_inv_key d2) = 1 ∧
      ∀ r ∈ db2.inventory, same_inv_key d2 r = true →
        r.current_stock = d2.current_stock ∧
        r.avg_monthly_consumption = d2.avg_monthly_consumption ∧
        r.accumulated_consumption_4m = d2.accumulated_consumption_4m ∧
        r.measurement = d2.measurement ∧
        r.last_month_consumption = d2.last_month_consumption ∧
        r.last_month_stock = d2.last_month_stock ∧
        r.status_indicator = d2.status_indicator ∧
        r.cpma_12_months_ago = d2.cpma_12_months_ago ∧
        r.cpma_24_months_ago = d2.cpma_24_months_ago ∧
        r.cpma_36_months_ago = d2.cpma_36_months_ago ∧
        r.accumulated_consumption_12m = d2.accumulated_consumption_12m ∧
        r.status = d2.status ∧
        r.updated_at = now2 := by
  have hsame : same_inv_key d1 = same_inv_key d2 := by
    funext r
    simp only [same_inv_key, hkey.1, hkey.2.1, hkey.2.2]
  obtain ⟨db1, heq1, huniq1, hpool1, hcount1⟩ := upsert_key_count db d1 now1 hpool huniq
  rw [hsame] at hcount1
  have hany1 : db1.inventory.any (same_inv_key d2) = true := by
    have hpos : 0 < db1.inventory.countP (same_inv_key d2) := by omega
    exact List.any_eq_true.mpr (List.countP_pos_iff.mp hpos)
  obtain ⟨db2, heq2, hcount2, hfields⟩ := upsert_overwrites db1 d2 now2 hpool1 hany1
  exact ⟨db1, db2, heq1, heq2, hcount2.trans hcount1, hfields⟩

/-- Witness for C2: the last-write-wins theorem applied to the empty store
and two concrete facts with the same key and different values. -/
theorem C2_upsert_witness :
    ∃ db1 db2,
      update_inventory DB.empty sample_inv_data1 3 = .ok db1 ∧
      update_inventory db1 sample_inv_data2 4 = .ok db2 ∧
      db2.inventory.countP (same_inv_key sample_inv_data2) = 1 ∧
      ∀ r ∈ db2.inventory, same_inv_key sample_inv_data2 r = true →
        r.current_stock = sample_inv_data2.current_stock ∧
        r.avg_monthly_consumption = sample_inv_data2.avg_monthly_consumption ∧
        r.accumulated_consumption_4m = sample_inv_data2.accumulated_consumption_4m ∧
        r.measurement = sample_inv_data2.measurement ∧
        r.last_month_consumption = sample_inv_data2.last_month_consumption ∧
        r.last_month_stock = sample_inv_data2.last_month_stock ∧
        r.status_indicator = sample_inv_data2.status_indicator ∧
        r.cpma_12_months_ago = sample_inv_data2.cpma_12_months_ago ∧
        r.cpma_24_months_ago = sample_inv_data2.cpma_24_months_ago ∧
        r.cpma_36_months_ago = sample_inv_data2.cpma_36_months_ago ∧
        r.accumulated_consumption_12m = sample_inv_data2.accumulated_consumption_12m ∧
        r.status = sample_inv_data2.status ∧
        r.updated_at = 4 :=
  C2_upsert_last_write_wins DB.empty sample_inv_data1 sample_inv_data2 3 4 rfl
    List.Pairwise.nil ⟨rfl, rfl, rfl⟩

/-- C3 counterexample: a record with product type code X is rejected as an
error, yet a region row and a facility row ARE written as a side effect of
processing that record — the claim says no region or facility write occurs. -/
theorem C3_invalid_type_counterexample :
    (process_records 9 7 (ETLState.init DB.empty) [sample_bad_type]).stats.errors = 1 ∧
    (process_records 9 7 (ETLState.init DB.empty) [sample_bad_type]).db.regions =
      [⟨1, "LIMA"⟩] ∧
    (process_records 9 7 (ETLState.init DB.empty) [sample_bad_type]).db.medical_centers ≠
      [] ∧
    (process_records 9 7 (ETLState.init DB.empty) [sample_bad_type]).db.products = [] := by
  refine ⟨by decide, by decide, ?_, by decide⟩
  decide

/-- C3 (amended): a record whose product type code is neither M nor I fails
and is counted as an error, no products-table write occurs for it, and
subsequent records are processed from the reached state; but the region and
facility writes already committed for that record persist (each resolve
step commits independently). -/
theorem C3_invalid_type_amended (today now : Nat) (s : ETLState) (r : Record)
    (hv : etl_validate_record r = true)
    (hreg : (r.diresa == "" || ["NULL", "NONE", ""].contains (py_upper r.diresa)) = false)
    (htypes : ∀ t ∈ s.db.product_types, t.code = "M" ∨ t.code = "I")
    (hm : r.tipo_prod ≠ "M") (hi : r.tipo_prod ≠ "I")
    (hpool : s.db.pool_failures = 0) :
    (batch_step today now s r).stats.errors = s.stats.errors + 1 ∧
    (batch_step today now s r).stats.processed = s.stats.processed ∧
    (batch_step today now s r).db.products = s.db.products ∧
    (∃ g ∈ (batch_step today now s r).db.regions, g.name = r.diresa) ∧
    (∃ c ∈ (batch_step today now s r).db.medical_centers, c.code = r.codpre) ∧
    (∀ rest : List Record,
      process_batch today now s (r :: rest) =
        process_batch today now (batch_step today now s r) rest) := by
  obtain ⟨rid, dbA, heqA, hAmc, hApt, hApr, hAinv, hApool, hAmem, _⟩ :=
    get_or_create_region_spec s.db r.diresa hpool
  obtain ⟨cid, dbB, heqB, hBreg, hBpt, hBpr, hBinv, hBpool, hBmem⟩ :=
    get_or_create_medical_center_spec dbA
      ⟨r.codpre, r.nombre_ejecutora, rid, r.categoria, r.reportante,
        r.institucion, r.tipo_reportante⟩ now hApool
  have htypesB : ∀ t ∈ dbB.product_types, t.code = "M" ∨ t.code = "I" := by
    rw [hBpt, hApt]
    exact htypes
  obtain ⟨dbC, heqC, hCreg, hCmc, hCpr, hCinv, hCpool, _⟩ :=
    get_product_type_id_invalid dbB r.tipo_prod hBpool htypesB hm hi
  have hrec : ∃ st, process_record today now s r =
      (st, some (.valueError "Invalid product type code")) ∧
      st.stats = { s.stats with regions_created := s.stats.regions_created + 1 } ∧
      st.db = dbC := by
    unfold process_record
    simp only [hv, Bool.not_true, Bool.false_eq_true, if_false]
    unfold process_region
    dsimp only
    rw [hreg]
    simp only [Bool.false_eq_true, if_false]
    rw [heqA]
    dsimp only
    unfold process_medical_center
    dsimp only
    rw [heqB]
    dsimp only
    unfold process_product
    rw [heqC]
    dsimp only
    exact ⟨_, rfl, rfl, rfl⟩
  obtain ⟨st, hrec, hst, hstdb⟩ := hrec
  have hb : batch_step today now s r =
      { st with stats := { st.stats with errors := st.stats.errors + 1 } } := by
    unfold batch_step
    rw [hrec]
  refine ⟨?_, ?_, ?_, ?_, ?_, fun rest => rfl⟩
  · rw [hb]
    show st.stats.errors + 1 = s.stats.errors + 1
    rw [hst]
  · rw [hb]
    show st.stats.processed = s.stats.processed
    rw [hst]
  · rw [hb]
    show st.db.products = s.db.products
    rw [hstdb, hCpr, hBpr, hApr]
  · rw [hb]
    show ∃ g ∈ st.db.regions, g.name = r.diresa
    rw [hstdb, hCreg, hBreg]
    exact hAmem
  · rw [hb]
    show ∃ c ∈ st.db.medical_centers, c.code = r.codpre
    rw [hstdb, hCmc]
    exact hBmem

/-- Witness for C3: the amended theorem applied to a fresh run and the
concrete record with product type code X. -/
theorem C3_invalid_type_witness :
    (batch_step 9 7 (ETLState.init DB.empty) sample_bad_type).stats.errors =
      (ETLState.init DB.empty).stats.errors + 1 ∧
    (batch_step 9 7 (ETLState.init DB.empty) sample_bad_type).stats.processed =
      (ETLState.init DB.empty).stats.processed ∧
    (batch_step 9 7 (ETLState.init DB.empty) sample_bad_type).db.products =
      (ETLState.init DB.empty).db.products ∧
    (∃ g ∈ (batch_step 9 7 (ETLState.init DB.empty) sample_bad_type).db.regions,
      g.name = sample_bad_type.diresa) ∧
    (∃ c ∈ (batch_step 9 7 (ETLState.init DB.empty) sample_bad_type).db.medical_centers,
      c.code = sample_bad_type.codpre) ∧
    (∀ rest : List Record,
      process_batch 9 7 (ETLState.init DB.empty) (sample_bad_type :: rest) =
        process_batch 9 7 (batch_step 9 7 (ETLState.init DB.empty) sample_bad_type) rest) :=
  C3_invalid_type_amended 9 7 (ETLState.init DB.empty) sample_bad_type
    (by decide) (by decide) (by decide) (by decide) (by decide) rfl

/-- C6 counterexample: a record with an absent report date does not produce
an inventory upsert with a defaulted date — it is skipped by record-level
validation and no inventory write happens at all; the claim says such
records still produce an upsert with the default. -/
theorem C6_absent_date_counterexample :
    etl_validate_record sample_no_date = false ∧
    (process_records 9 7 (ETLState.init DB.empty) [sample_no_date]).stats.skipped = 1 ∧
    (process_records 9 7 (ETLState.init DB.empty) [sample_no_date]).db.inventory = [] := by
  decide

/-- C6 (amended): a record with an absent report date or absent stock is
skipped by the orchestrator with no inventory upsert; the inventory data
built for an accepted record takes the record's report date (the today
default being unreachable, since validation guarantees a date), defaults an
absent status to ACTIVO and a falsy stock to 0; and an accepted record that
resolves successfully writes an inventory row carrying its own report date,
its stock (with the truthiness default) and the defaulted status. -/
theorem C6_defaults_amended :
    (∀ (today now : Nat) (s : ETLState) (q : Record),
       q.fechareporte = none ∨ q.stk = none →
       process_record today now s q =
         ({ s with stats := { s.stats with skipped := s.stats.skipped + 1 } }, none)) ∧
    (∀ (r : Record) (cid pid today : Nat),
       (build_inventory_data r cid pid today).report_date = py_or_date r.fechareporte today ∧
       (build_inventory_data r cid pid today).status = py_or_str r.estado "ACTIVO" ∧
       (build_inventory_data r cid pid today).current_stock = py_or_rat r.stk 0) ∧
    (∀ (today now : Nat) (s : ETLState) (r : Record),
       etl_validate_record r = true →
       (r.diresa == "" || ["NULL", "NONE", ""].contains (py_upper r.diresa)) = false →
       (r.tipo_prod = "M" ∨ r.tipo_prod = "I") →
       s.db.pool_failures = 0 →
       (process_record today now s r).2 = none ∧
       ∃ d0, r.fechareporte = some d0 ∧
         ∃ row ∈ (process_record today now s r).1.db.inventory,
           row.report_date = d0 ∧
           row.current_stock = py_or_rat r.stk 0 ∧
           row.status = py_or_str r.estado "ACTIVO") := by
  refine ⟨?_, fun r cid pid today => ⟨rfl, rfl, rfl⟩, ?_⟩
  · intro today now s q hq
    have hv : etl_validate_record q = false := by
      rcases hq with h | h <;> simp [etl_validate_record, h]
    exact process_record_invalid today now s q hv
  · intro today now s r hv hreg htype hpool
    obtain ⟨rid, dbA, heqA, hAmc, hApt, hApr, hAinv, hApool, hAmem, _⟩ :=
      get_or_create_region_spec s.db r.diresa hpool
    obtain ⟨cid, dbB, heqB, hBreg, hBpt, hBpr, hBinv, hBpool, hBmem⟩ :=
      get_or_create_medical_center_spec dbA
        ⟨r.codpre, r.nombre_ejecutora, rid, r.categoria, r.reportante,
          r.institucion, r.tipo_reportante⟩ now hApool
    obtain ⟨tid, dbC, heqC, hCreg, hCmc, hCpr, hCinv, hCpool⟩ :=
      get_product_type_id_mi dbB r.tipo_prod hBpool htype
    obtain ⟨pid, dbD, heqD, hDreg, hDmc, hDpt, hDinv, hDpool, hDmem⟩ :=
      get_or_create_product_spec dbC ⟨r.codmed, r.nombre_prod, tid⟩ now hCpool
    obtain ⟨dbE, heqE, hEreg, hEmc, hEpt, hEpr, hEpool, row, hrowmem, hrowkey⟩ :=
      update_inventory_spec dbD (build_inventory_data r cid pid today) now hDpool
    have hrec : ∃ st, process_record today now s r = (st, none) ∧ st.db = dbE := by
      unfold process_record
      simp only [hv, Bool.not_true, Bool.false_eq_true, if_false]
      unfold process_region
      dsimp only
      rw [hreg]
      simp only [Bool.false_eq_true, if_false]
      rw [heqA]
      dsimp only
      unfold process_medical_center
      dsimp only
      rw [heqB]
      dsimp only
      unfold process_product
      rw [heqC]
      dsimp only
      rw [heqD]
      dsimp only
      unfold process_inventory
      rw [heqE]
      dsimp only
      exact ⟨_, rfl, rfl⟩
    obtain ⟨st, hrec, hstdb⟩ := hrec
    have hdate : r.fechareporte.isSome = true := by
      unfold etl_validate_record at hv
      simp only [Bool.and_eq_true] at hv
      exact hv.1.2
    rcases hfp : r.fechareporte with _ | d0
    · rw [hfp] at hdate
      simp at hdate
    · refine ⟨by rw [hrec], d0, rfl, ?_⟩
      rw [hrec]
      dsimp only
      rw [hstdb]
      refine ⟨row, hrowmem, ?_, ?_, ?_⟩
      · rw [hrowkey.2.2.1]
        show py_or_date r.fechareporte today = d0
        rw [hfp]
        rfl
      · exact hrowkey.2.2.2.1
      · exact hrowkey.2.2.2.2.1

/-- Witness for C6: the amended theorem applied to the concrete record with
an absent report date and to the concrete well-formed record. -/
theorem C6_defaults_witness :
    process_record 9 7 (ETLState.init DB.empty) sample_no_date =
      ({ (ETLState.init DB.empty) with
           stats := { (ETLState.init DB.empty).stats with
             skipped := (ETLState.init DB.empty).stats.skipped + 1 } }, none) ∧
    (build_inventory_data sample_record 1 1 9).report_date =
      py_or_date sample_record.fechareporte 9 ∧
    (process_record 9 7 (ETLState.init DB.empty) sample_record).2 = none ∧
    ∃ d0, sample_record.fechareporte = some d0 ∧
      ∃ row ∈ (process_record 9 7 (ETLState.init DB.empty) sample_record).1.db.inventory,
        row.report_date = d0 ∧
        row.current_stock = py_or_rat sample_record.stk 0 ∧
        row.status = py_or_str sample_record.estado "ACTIVO" :=
  ⟨C6_defaults_amended.1 9 7 (ETLState.init DB.empty) sample_no_date (Or.inl rfl),
   (C6_defaults_amended.2.1 sample_record 1 1 9).1,
   (C6_defaults_amended.2.2 9 7 (ETLState.init DB.empty) sample_record
     (by decide) (by decide) (Or.inl rfl) rfl).1,
   (C6_defaults_amended.2.2 9 7 (ETLState.init DB.empty) sample_record
     (by decide) (by decide) (Or.inl rfl) rfl).2⟩

end Ingestor
